import Mathlib

/-!
# imgtile: a shallow embedding of `main.go`

The program lists a folder, decodes the JPEG/PNG files in it, checks that they
all have the size of the first one, draws them on a grid canvas and encodes
the canvas.  This file embeds `main` (the `Run` closure) and `mergeImages`
together with the few standard-library functions they call, and proves the
properties of the specification about them.

Modelling conventions:

* Go's `int` is the 64-bit signed integer: values are `Int`, and every
  addition, subtraction and multiplication of the source is wrapped with
  `wrapInt`; `/` and `%` are the truncated `Int.tdiv` and `Int.tmod`.
* The file system, the decoder and the encoder are inputs: `Env` records what
  `os.ReadDir`, `os.Open`, `image.Decode`, `os.Create` and the encoder answer.
* The memory allocator is an input too: `makeOk n` tells whether
  `make([]uint8, n)` returns.
* A pixel of a decoded image is a Go `color.Color`; the canvas holds
  `color.RGBA` values, and `draw.Draw` converts the one into the other.
* Every observable action is appended to a trace of `Event`s.
-/

namespace Imgtile

/-! ## Machine integers -/

/-- Successor of the largest `int` (2^63). -/
def two63 : Int := 9223372036854775808

/-- Number of 64-bit patterns (2^64). -/
def two64 : Int := 18446744073709551616

/-- A mathematical integer reduced to the `int` it is stored as (two's
complement, 64 bits). -/
def wrapInt (z : Int) : Int := (z + two63) % two64 - two63

/-- Go `a + b` on `int`. -/
def addInt (a b : Int) : Int := wrapInt (a + b)

/-- Go `a - b` on `int`. -/
def subInt (a b : Int) : Int := wrapInt (a - b)

/-- Go `a * b` on `int`. -/
def mulInt (a b : Int) : Int := wrapInt (a * b)

/-- Go `a / b` on `int` for `b ≠ 0`: the quotient truncated toward zero. -/
def divInt (a b : Int) : Int := wrapInt (Int.tdiv a b)

/-- Go `a % b` on `int` for `b ≠ 0`: the remainder of the truncated division. -/
def modInt (a b : Int) : Int := Int.tmod a b

/-! ## Strings: `strings.ToLower`, `filepath.Ext`, `strings.HasSuffix` -/

/-- The lower case of one code point, as `unicode.ToLower` gives it, on ASCII
and on the two other code points whose lower case is an ASCII letter (KELVIN
SIGN and LATIN CAPITAL LETTER I WITH DOT ABOVE).  Other code points are left
alone: their lower case is never ASCII, so comparisons of the result with an
ASCII literal are not affected. -/
def toLowerRune (c : Char) : Char :=
  if 65 ≤ c.toNat ∧ c.toNat ≤ 90 then Char.ofNat (c.toNat + 32)
  else if c.toNat = 0x212A then 'k'
  else if c.toNat = 0x130 then 'i'
  else c

/-- Go `strings.ToLower`. -/
def toLower (s : String) : String := String.mk (s.data.map toLowerRune)

/-- The loop of `filepath.Ext`, walking the path from its last character: the
argument is what is left to scan (reversed), `acc` what was scanned.  It stops
at a path separator and returns the suffix that starts at the first dot met. -/
def extScan : List Char → List Char → List Char
  | [], _ => []
  | c :: rest, acc =>
    if c = '/' then []
    else if c = '.' then '.' :: acc
    else extScan rest (c :: acc)

/-- Go `filepath.Ext` (with `/` as the path separator). -/
def filepathExt (path : String) : String := String.mk (extScan path.data.reverse [])

/-- Go `strings.HasSuffix`. -/
def hasSuffix (s suffix : String) : Bool := suffix.data.isSuffixOf s.data

/-- The extension test in the words of the specification: the extension of the
name, lower-cased, is one of `.jpg`, `.jpeg`, `.png`. -/
def supportedExt (name : String) : Bool :=
  decide (toLower (filepathExt name) ∈ [".jpg", ".jpeg", ".png"])

/-! ## Images, rectangles and `draw.Draw` -/

/-- Go `color.RGBA`: four bytes, alpha-premultiplied; the value `image.RGBA`
stores for a pixel. -/
structure Color where
  r : Fin 256
  g : Fin 256
  b : Fin 256
  a : Fin 256
  deriving DecidableEq, Repr

/-- The zero colour (transparent black), the content of a fresh canvas. -/
def Color.zero : Color := ⟨0, 0, 0, 0⟩

/-- A Go `color.Color` as `At` of a decoded image returns it: a `color.RGBA`
(8-bit PNG without alpha), a `color.NRGBA` (8-bit PNG with alpha, channels not
premultiplied), or a colour of any other model (`Gray`, `YCbCr`, `CMYK`, the
16-bit models), which is given by the four 16-bit values of its `RGBA` method,
the only thing the interface `color.Color` offers. -/
inductive GoColor where
  | rgba (c : Color)
  | nrgba (r g b a : Fin 256)
  | other (r g b a : Fin 65536)
  deriving DecidableEq, Repr

/-- Go `Color.RGBA()`: the alpha-premultiplied channels on 16 bits.  For
`color.RGBA` each byte `v` becomes `v | v << 8`; for `color.NRGBA` the colour
channels are also multiplied by the alpha byte and divided by `0xff`. -/
def GoColor.rgba64 : GoColor → Nat × Nat × Nat × Nat
  | .rgba c => (c.r.val * 257, c.g.val * 257, c.b.val * 257, c.a.val * 257)
  | .nrgba r g b a =>
    (r.val * 257 * a.val / 255, g.val * 257 * a.val / 255, b.val * 257 * a.val / 255,
     a.val * 257)
  | .other r g b a => (r.val, g.val, b.val, a.val)

/-- Go `uint8(v >> 8)`: the high byte of a 16-bit channel. -/
def highByte (v : Nat) : Fin 256 := ⟨(v / 256) % 256, Nat.mod_lt _ (by decide)⟩

/-- The `color.RGBA` that `draw.Draw` with `draw.Src` stores into an
`image.RGBA` for a source colour: the high byte of each channel of its `RGBA`
method (the fast paths of `image/draw` compute the same bytes). -/
def GoColor.toRGBA (c : GoColor) : Color :=
  ⟨highByte c.rgba64.1, highByte c.rgba64.2.1, highByte c.rgba64.2.2.1,
   highByte c.rgba64.2.2.2⟩

/-- A decoded `image.Image`.  The PNG and JPEG decoders (the only ones
registered) return images whose bounds are `Rect(0, 0, width, height)`;
`colorAt x y` is the colour that `At(x, y)` returns, in the colour model of the
image.  Width and height are `int`s, hence below 2^63. -/
structure Image where
  width : Nat
  height : Nat
  colorAt : Int → Int → GoColor
  width_lt : (width : Int) < two63
  height_lt : (height : Int) < two63

/-- Go `image.Rectangle`: `Min` is `(minX, minY)`, `Max` is `(maxX, maxY)`. -/
structure Rectangle where
  minX : Int
  minY : Int
  maxX : Int
  maxY : Int
  deriving DecidableEq, Repr

/-- Go `image.Rect`: the rectangle with the coordinates put in order. -/
def imageRect (x0 y0 x1 y1 : Int) : Rectangle :=
  let (x0, x1) := if x0 > x1 then (x1, x0) else (x0, x1)
  let (y0, y1) := if y0 > y1 then (y1, y0) else (y0, y1)
  ⟨x0, y0, x1, y1⟩

/-- Go `Rectangle.Dx`. -/
def Rectangle.dx (r : Rectangle) : Int := subInt r.maxX r.minX

/-- Go `Rectangle.Dy`. -/
def Rectangle.dy (r : Rectangle) : Int := subInt r.maxY r.minY

/-- Go `Rectangle.Empty`. -/
def Rectangle.empty (r : Rectangle) : Bool :=
  decide (r.minX ≥ r.maxX) || decide (r.minY ≥ r.maxY)

/-- Go `Rectangle.Intersect`. -/
def Rectangle.intersect (r s : Rectangle) : Rectangle :=
  let r1 : Rectangle :=
    ⟨if r.minX < s.minX then s.minX else r.minX,
     if r.minY < s.minY then s.minY else r.minY,
     if r.maxX > s.maxX then s.maxX else r.maxX,
     if r.maxY > s.maxY then s.maxY else r.maxY⟩
  if r1.empty then ⟨0, 0, 0, 0⟩ else r1

/-- Go `Rectangle.Add`: the rectangle translated by `(px, py)`. -/
def Rectangle.add (r : Rectangle) (px py : Int) : Rectangle :=
  ⟨addInt r.minX px, addInt r.minY py, addInt r.maxX px, addInt r.maxY py⟩

/-- Membership of the point `(x, y)` in a rectangle (Go `Point.In`). -/
def Rectangle.contains (r : Rectangle) (x y : Int) : Bool :=
  decide (r.minX ≤ x) && decide (x < r.maxX) && decide (r.minY ≤ y) && decide (y < r.maxY)

/-- Go `Image.Bounds` of a decoded image. -/
def Image.bounds (img : Image) : Rectangle := imageRect 0 0 img.width img.height

/-- Go `*image.RGBA`: its bounds and the colour of each pixel. -/
structure RGBA where
  rect : Rectangle
  pix : Int → Int → Color

/-- The size check of `image.NewRGBA` (`mul3NonNeg`): the product
`x * y * z` when the three are non-negative and the product fits an `int`,
else `-1`. -/
def mul3NonNeg (x y z : Int) : Int :=
  if x < 0 ∨ y < 0 ∨ z < 0 then -1
  else if x * y ≥ two64 then -1
  else if (x * y) * z ≥ two64 then -1
  else if (x * y) * z ≥ two63 then -1
  else (x * y) * z

/-- Go `image.NewRGBA`: a zeroed canvas with bounds `r`, or `none` when the
call does not return: the size check panics ("Rectangle has huge or negative
dimensions"), or `make([]uint8, n)` for the `n` bytes of the pixel buffer does
not return (`makeOk n = false`: the panic "makeslice: len out of range" above
the limit of the platform, or the runtime out of memory). -/
def newRGBA (makeOk : Int → Bool) (r : Rectangle) : Option RGBA :=
  if mul3NonNeg 4 r.dx r.dy < 0 then none
  else if makeOk (mul3NonNeg 4 r.dx r.dy) then some ⟨r, fun _ _ => Color.zero⟩
  else none

/-- The rectangle that `draw.Draw(dst, r, src, image.Point{}, op)` really
writes: `r` clipped to the bounds of `dst` and to the bounds of `src` moved to
the origin of `r` (the function `clip` of `image/draw`). -/
def clipRect (dst : RGBA) (r : Rectangle) (src : Image) : Rectangle :=
  (r.intersect dst.rect).intersect (src.bounds.add (subInt r.minX 0) (subInt r.minY 0))

/-- Go `draw.Draw(dst, r, src, image.Point{}, draw.Src)`: every pixel of the
clipped rectangle is overwritten with the source pixel at the same offset from
the origin of `r`, converted to `color.RGBA`; the other pixels are not
touched. -/
def drawSrc (dst : RGBA) (r : Rectangle) (src : Image) : RGBA :=
  let c := clipRect dst r src
  { rect := dst.rect
    pix := fun x y =>
      if c.contains x y then (src.colorAt (subInt x r.minX) (subInt y r.minY)).toRGBA
      else dst.pix x y }

/-! ## The program state: directory entries, events, outcomes -/

/-- What happens when a candidate file is opened and decoded. -/
inductive FileState where
  | openError
  | decodeError
  | decoded (img : Image)

/-- One `os.DirEntry` of the listing, with what `os.Open` and `image.Decode`
do with it. -/
structure DirEntry where
  name : String
  isDir : Bool
  file : FileState

/-- The encoder chosen for the output. -/
inductive Codec where
  | png
  | jpeg (quality : Nat)
  deriving DecidableEq, Repr

/-- The observable actions of a run, in the order they happen. -/
inductive Event where
  | readDir (folder : String)
  | openFile (folder name : String)
  | logSkipOpen (folder name : String)
  | logSkipDecode (folder name : String)
  | allocCanvas (r : Rectangle)
  | createFile (path : String)
  | encode (codec : Codec)
  | printSaved (path : String)
  deriving DecidableEq, Repr

/-- What stops the program inside the compositing code: the division by zero
of line 84, or `image.NewRGBA` not returning on line 88. -/
inductive Panic where
  | divideByZero
  | newRGBA
  deriving DecidableEq, Repr

/-- How `mergeImages` ends: one of the `log.Fatal` calls, a panic, or the
canvas written with a codec. -/
inductive Outcome where
  | readDirFailed
  | sizeMismatch (name : String)
  | noImages
  | panicked (p : Panic)
  | createFailed
  | saveFailed
  | saved (dst : RGBA) (codec : Codec)

/-- The answers of the outside world during one run: the result of
`os.ReadDir` (`none` is an error), whether `os.Create` succeeds and whether
the encoder does. -/
structure Env where
  readDir : Option (List DirEntry)
  createOk : Bool
  encodeOk : Bool

/-- The trace and the outcome of a call of `mergeImages`. -/
structure Result where
  trace : List Event
  outcome : Outcome

/-- The variables of the loading loop: `images`, `imgWidth`, `imgHeight`, and
the trace so far. -/
structure LoadState where
  images : List Image
  imgWidth : Int
  imgHeight : Int
  trace : List Event

/-! ## `mergeImages` -/

/-- One iteration of the loading loop (lines 51-78).  An error is the
`log.Fatalf` of line 75 with the trace up to it and the name it prints. -/
def loadStep (folder : String) (st : LoadState) (file : DirEntry) :
    Except (List Event × String) LoadState :=
  if file.isDir then .ok st
  else
    let ext := toLower (filepathExt file.name)
    if ext != ".jpg" && ext != ".jpeg" && ext != ".png" then .ok st
    else
      let tr := st.trace ++ [Event.openFile folder file.name]
      match file.file with
      | .openError => .ok { st with trace := tr ++ [Event.logSkipOpen folder file.name] }
      | .decodeError => .ok { st with trace := tr ++ [Event.logSkipDecode folder file.name] }
      | .decoded img =>
        if st.images.length = 0 then
          .ok { images := st.images ++ [img], imgWidth := img.bounds.dx,
                imgHeight := img.bounds.dy, trace := tr }
        else if img.bounds.dx ≠ st.imgWidth ∨ img.bounds.dy ≠ st.imgHeight then
          .error (tr, file.name)
        else .ok { st with images := st.images ++ [img], trace := tr }

/-- The loading loop over the listing. -/
def loadLoop (folder : String) : List DirEntry → LoadState →
    Except (List Event × String) LoadState
  | [], st => .ok st
  | file :: rest, st =>
    match loadStep folder st file with
    | .ok st1 => loadLoop folder rest st1
    | .error e => .error e

/-- Line 84: `rows := (len(images) + columns - 1) / columns`. -/
def rowsOf (columns : Int) (n : Nat) : Int :=
  divInt (subInt (addInt n columns) 1) columns

/-- Line 85: `outWidth := columns * imgWidth`. -/
def outWidthOf (columns imgWidth : Int) : Int := mulInt columns imgWidth

/-- Line 86: `outHeight := rows * imgHeight`. -/
def outHeightOf (columns : Int) (n : Nat) (imgHeight : Int) : Int :=
  mulInt (rowsOf columns n) imgHeight

/-- Line 88: the rectangle handed to `image.NewRGBA`. -/
def canvasRect (columns : Int) (n : Nat) (imgWidth imgHeight : Int) : Rectangle :=
  imageRect 0 0 (outWidthOf columns imgWidth) (outHeightOf columns n imgHeight)

/-- Lines 90-92: the destination rectangle of the image of index `i`. -/
def destRect (columns imgWidth imgHeight : Int) (i : Nat) : Rectangle :=
  let x := mulInt (modInt i columns) imgWidth
  let y := mulInt (divInt i columns) imgHeight
  imageRect x y (addInt x imgWidth) (addInt y imgHeight)

/-- The compositing loop (lines 89-93) from index `i` on. -/
def drawLoop (columns imgWidth imgHeight : Int) : List Image → Nat → RGBA → RGBA
  | [], _, dst => dst
  | img :: rest, i, dst =>
    drawLoop columns imgWidth imgHeight rest (i + 1)
      (drawSrc dst (destRect columns imgWidth imgHeight i) img)

/-- Lines 84-93: the canvas after compositing, or what stops the program (the
division by a zero `columns`, or `image.NewRGBA`). -/
def composite (makeOk : Int → Bool) (columns : Int) (images : List Image)
    (imgWidth imgHeight : Int) : Except Panic RGBA :=
  if columns = 0 then .error Panic.divideByZero
  else
    match newRGBA makeOk (canvasRect columns images.length imgWidth imgHeight) with
    | none => .error Panic.newRGBA
    | some dst => .ok (drawLoop columns imgWidth imgHeight images 0 dst)

/-- Lines 101-105: the codec chosen from the output path. -/
def chooseCodec (outputFile : String) : Codec :=
  if hasSuffix (toLower outputFile) ".png" then Codec.png else Codec.jpeg 90

/-- Lines 80-111 of `mergeImages`: what happens after the loading loop, from
the variables it leaves. -/
def finishMerge (makeOk : Int → Bool) (env : Env) (columns : Int) (outputFile : String)
    (st : LoadState) : Result :=
  if st.images.length = 0 then ⟨st.trace, Outcome.noImages⟩
  else
    match composite makeOk columns st.images st.imgWidth st.imgHeight with
    | .error p => ⟨st.trace, Outcome.panicked p⟩
    | .ok dst =>
      let tr := st.trace ++ [Event.allocCanvas dst.rect, Event.createFile outputFile]
      if !env.createOk then ⟨tr, Outcome.createFailed⟩
      else
        let codec := chooseCodec outputFile
        let tr := tr ++ [Event.encode codec]
        if !env.encodeOk then ⟨tr, Outcome.saveFailed⟩
        else ⟨tr ++ [Event.printSaved outputFile], Outcome.saved dst codec⟩

/-- The variables before the loading loop, once `os.ReadDir` has returned. -/
def initState (folder : String) : LoadState := ⟨[], 0, 0, [Event.readDir folder]⟩

/-- The function `mergeImages` of `main.go`. -/
def mergeImages (makeOk : Int → Bool) (env : Env) (folder : String) (columns : Int)
    (outputFile : String) : Result :=
  match env.readDir with
  | none => ⟨[Event.readDir folder], Outcome.readDirFailed⟩
  | some files =>
    match loadLoop folder files (initState folder) with
    | .error (tr, name) => ⟨tr, Outcome.sizeMismatch name⟩
    | .ok st => finishMerge makeOk env columns outputFile st

/-! ## `main`: the `Run` function of the command -/

/-- What the `Run` closure does: the usage error of line 29, or the call of
`mergeImages` of line 31 with its result. -/
inductive RunResult where
  | usageError
  | merged (folder : String) (columns : Int) (outputFile : String) (r : Result)

/-- The `Run` closure of `main` (lines 27-32) on the three flag values. -/
def run (makeOk : Int → Bool) (env : Env) (inputFolder : String) (columns : Int)
    (outputFile : String) : RunResult :=
  if inputFolder = "" ∨ columns ≤ 0 ∨ outputFile = "" then RunResult.usageError
  else RunResult.merged inputFolder columns outputFile
    (mergeImages makeOk env inputFolder columns outputFile)

/-! ## Definitions in the words of the specification -/

/-- The ceiling of `n / c`, as a rational quotient rounded up. -/
def ceilDiv (n c : Nat) : Int := ⌈(n : ℚ) / (c : ℚ)⌉

/-- The image of an entry that is a successfully decoded candidate: not a
directory, with a supported extension, opened and decoded. -/
def candidateImage (e : DirEntry) : Option Image :=
  if e.isDir then none
  else if supportedExt e.name then
    match e.file with
    | .decoded img => some img
    | _ => none
  else none

/-- An entry that the loading loop skips, in the words of the specification: a
directory, an entry with an unsupported extension, a file that fails to open
or a file that fails to decode. -/
def DirEntry.skipped (e : DirEntry) : Bool :=
  e.isDir || !supportedExt e.name ||
    match e.file with
    | .openError => true
    | .decodeError => true
    | .decoded _ => false

/-- An entry is a successfully decoded candidate whose width or height differs
from `w`, `h`. -/
def mismatches (w h : Int) (e : DirEntry) : Bool :=
  match candidateImage e with
  | some img => decide ((img.width : Int) ≠ w ∨ (img.height : Int) ≠ h)
  | none => false

/-- The first successfully decoded candidate image of a listing. -/
def firstImage (files : List DirEntry) : Option Image :=
  (files.filterMap candidateImage).head?

/-- The first entry, in listing order, that is a successfully decoded candidate
with a size different from that of the first successfully decoded candidate. -/
def firstMismatch (files : List DirEntry) : Option DirEntry :=
  match firstImage files with
  | none => none
  | some img0 => files.find? (mismatches img0.width img0.height)

/-- Events that belong to the loading phase: reading the folder, opening a file
whose extension is supported, logging a skip. -/
def Event.isLoad : Event → Bool
  | .readDir _ => true
  | .openFile _ name => supportedExt name
  | .logSkipOpen _ _ => true
  | .logSkipDecode _ _ => true
  | _ => false

/-- The trace of the loading loop, whether it ended normally or fatally. -/
def loadTrace : Except (List Event × String) LoadState → List Event
  | .ok st => st.trace
  | .error e => e.1

/-- A listing and the same listing with skipped entries (directories, other
extensions, files that fail to open or to decode) inserted anywhere. -/
inductive InsertSkipped : List DirEntry → List DirEntry → Prop where
  | nil : InsertSkipped [] []
  | keep (e : DirEntry) {l l1 : List DirEntry} :
      InsertSkipped l l1 → InsertSkipped (e :: l) (e :: l1)
  | skip (e : DirEntry) {l l1 : List DirEntry} :
      e.skipped = true → InsertSkipped l l1 → InsertSkipped l (e :: l1)

/-- Two results of the loading loop that agree on everything but the trace:
the same fatal error, or the same images and canonical size. -/
def SameLoad : Except (List Event × String) LoadState →
    Except (List Event × String) LoadState → Prop
  | .ok a, .ok b => a.images = b.images ∧ a.imgWidth = b.imgWidth ∧ a.imgHeight = b.imgHeight
  | .error a, .error b => a.2 = b.2
  | _, _ => False

/-- The sizes for which the arithmetic of lines 84-86 does not wrap: the sum
`n + columns - 1`, the canvas width and the canvas height are `int`s. -/
def NoWrap (c n w h : Nat) : Prop :=
  (n : Int) + c - 1 < two63 ∧ (c : Int) * w < two63 ∧ ceilDiv n c * h < two63

/-- The byte size of the pixel buffer passes the size check of
`image.NewRGBA`. -/
def SizeOk (c n w h : Nat) : Prop :=
  4 * ((c : Int) * w) < two64 ∧ 4 * ((c : Int) * w) * (ceilDiv n c * h) < two63

/-- The sizes for which compositing does not leave the range of `int`: the
sum `n + columns - 1`, the canvas width and height, and the byte size of the
canvas buffer that `image.NewRGBA` computes. -/
def Fits (c n w h : Nat) : Prop :=
  (n : Int) + c - 1 < two63 ∧
  (c : Int) * w < two63 ∧ 4 * ((c : Int) * w) < two64 ∧
  ceilDiv n c * h < two63 ∧
  4 * ((c : Int) * w) * (ceilDiv n c * h) < two63

instance (c n w h : Nat) : Decidable (Fits c n w h) := by
  unfold Fits
  infer_instance

/-! ## Concrete inputs -/

/-- Opaque red. -/
def red : Color := ⟨255, 0, 0, 255⟩

/-- Opaque blue. -/
def blue : Color := ⟨0, 0, 255, 255⟩

/-- Opaque green. -/
def green : Color := ⟨0, 255, 0, 255⟩

/-- An image of one colour, held as `color.RGBA`. -/
def solid (w h : Nat) (col : Color) (hw : (w : Int) < two63) (hh : (h : Int) < two63) :
    Image :=
  ⟨w, h, fun _ _ => GoColor.rgba col, hw, hh⟩

/-- An allocator that never fails. -/
def plentyOfMemory : Int → Bool := fun _ => true

/-- An allocator that refuses every buffer of more than 2^48 bytes, the limit
of `make` on linux/amd64. -/
def limitedMemory : Int → Bool := fun n => decide (n ≤ 281474976710656)

/-- A 1x1 image with the translucent pixel `color.NRGBA{200, 100, 50, 3}`, as
the PNG decoder returns for an 8-bit image with alpha. -/
def translucentImage : Image :=
  ⟨1, 1, fun _ _ => GoColor.nrgba 200 100 50 3, by decide, by decide⟩

/-- A regular file that opens and decodes to `img`. -/
def imageFile (name : String) (img : Image) : DirEntry := ⟨name, false, FileState.decoded img⟩

/-- A folder with one image, 2 pixels wide and 1 pixel high. -/
def wideFiles : List DirEntry :=
  [imageFile "a.png" (solid 2 1 red (by decide) (by decide))]

/-- A world in which the folder with the one image is read. -/
def wideEnv : Env := ⟨some wideFiles, true, true⟩

/-- The three 2x2 images of the scenario of the specification. -/
def scenarioImages : List Image :=
  [solid 2 2 red (by decide) (by decide), solid 2 2 blue (by decide) (by decide),
   solid 2 2 green (by decide) (by decide)]

/-- The folder of the scenario: `a.png` (red), `b.png` (blue), `c.png` (green). -/
def scenarioFiles : List DirEntry :=
  [imageFile "a.png" (solid 2 2 red (by decide) (by decide)),
   imageFile "b.png" (solid 2 2 blue (by decide) (by decide)),
   imageFile "c.png" (solid 2 2 green (by decide) (by decide))]

/-- A world in which the scenario folder is read and the output is written. -/
def scenarioEnv : Env := ⟨some scenarioFiles, true, true⟩

/-- The largest `int`, a column count that `Run` accepts. -/
def hugeColumns : Int := 9223372036854775807

/-- Two red images, 2 pixels wide and 1 pixel high. -/
def stripImages : List Image :=
  [solid 2 1 red (by decide) (by decide), solid 2 1 red (by decide) (by decide)]

/-- A folder with the two strip images. -/
def stripFiles : List DirEntry :=
  [imageFile "a.png" (solid 2 1 red (by decide) (by decide)),
   imageFile "b.png" (solid 2 1 red (by decide) (by decide))]

/-- A world in which the strip folder is read and the output is written. -/
def stripEnv : Env := ⟨some stripFiles, true, true⟩

/-- A folder where the third candidate has another size: a corrupt file, a
2x2 image, a text file, a 3x2 image and a 5x5 image. -/
def mismatchFiles : List DirEntry :=
  [⟨"broken.png", false, FileState.decodeError⟩,
   imageFile "a.png" (solid 2 2 red (by decide) (by decide)),
   ⟨"notes.txt", false, FileState.decodeError⟩,
   imageFile "c.png" (solid 3 2 blue (by decide) (by decide)),
   imageFile "d.png" (solid 5 5 green (by decide) (by decide))]

/-- A world in which the folder with the mismatch is read. -/
def mismatchEnv : Env := ⟨some mismatchFiles, true, true⟩

/-- A folder without any image that loads: a text file, a directory with an
image extension, a corrupt file and a file that cannot be opened. -/
def barrenFiles : List DirEntry :=
  [⟨"readme.txt", false, FileState.decodeError⟩,
   ⟨"album.png", true, FileState.openError⟩,
   ⟨"broken.png", false, FileState.decodeError⟩,
   ⟨"locked.jpg", false, FileState.openError⟩]

/-- A world in which the folder without images is read. -/
def barrenEnv : Env := ⟨some barrenFiles, true, true⟩

/-- A folder with upper-case extensions and entries to skip. -/
def mixedFiles : List DirEntry :=
  [⟨"album.png", true, FileState.openError⟩,
   imageFile "A.PNG" (solid 2 2 red (by decide) (by decide)),
   imageFile "readme.txt" (solid 7 7 green (by decide) (by decide)),
   imageFile "b.JpEg" (solid 2 2 blue (by decide) (by decide)),
   ⟨"broken.png", false, FileState.decodeError⟩,
   imageFile "c.jpg" (solid 2 2 green (by decide) (by decide))]

/-- A world in which the mixed folder is read and the output is written. -/
def mixedEnv : Env := ⟨some mixedFiles, true, true⟩

/-- The mixed folder without the entries that are skipped. -/
def cleanFiles : List DirEntry :=
  [imageFile "A.PNG" (solid 2 2 red (by decide) (by decide)),
   imageFile "b.JpEg" (solid 2 2 blue (by decide) (by decide)),
   imageFile "c.jpg" (solid 2 2 green (by decide) (by decide))]

/-- A world in which the clean folder is read and the output is written. -/
def cleanEnv : Env := ⟨some cleanFiles, true, true⟩

/-- The colour of a pixel of the composited canvas, `none` after a panic. -/
def compositePixel (r : Except Panic RGBA) (x y : Int) : Option Color :=
  match r with
  | .ok dst => some (dst.pix x y)
  | .error _ => none

/-- The bounds of the composited canvas, `none` after a panic. -/
def compositeBounds (r : Except Panic RGBA) : Option Rectangle :=
  match r with
  | .ok dst => some dst.rect
  | .error _ => none

/-- The colour of a pixel of the canvas that was saved, if one was. -/
def Outcome.pixel (o : Outcome) (x y : Int) : Option Color :=
  match o with
  | .saved dst _ => some (dst.pix x y)
  | _ => none

/-- The bounds of the canvas that was saved, if one was. -/
def Outcome.bounds (o : Outcome) : Option Rectangle :=
  match o with
  | .saved dst _ => some dst.rect
  | _ => none

/-- The codec the canvas was saved with, if it was saved. -/
def Outcome.codec (o : Outcome) : Option Codec :=
  match o with
  | .saved _ codec => some codec
  | _ => none

/-- The file named by the fatal size error, if the run ended with it. -/
def Outcome.mismatchName (o : Outcome) : Option String :=
  match o with
  | .sizeMismatch name => some name
  | _ => none

/-- What stopped the compositing code, if the run ended there. -/
def Outcome.panic (o : Outcome) : Option Panic :=
  match o with
  | .panicked p => some p
  | _ => none

/-- Whether the run ended with "No images loaded". -/
def Outcome.isNoImages (o : Outcome) : Bool :=
  match o with
  | .noImages => true
  | _ => false

/-- Whether the `Run` closure ended with the usage error. -/
def RunResult.isUsageError (r : RunResult) : Bool :=
  match r with
  | .usageError => true
  | .merged _ _ _ _ => false

/-- The canvas of the scenario before the drawing loop. -/
def scenarioBlank : RGBA := ⟨⟨0, 0, 4, 4⟩, fun _ _ => Color.zero⟩

/-- The canvas of the scenario after the drawing loop. -/
def scenarioCanvas : RGBA := drawLoop 2 2 2 scenarioImages 0 scenarioBlank

/-! ## Machine arithmetic -/

theorem wrapInt_of_range {z : Int} (h1 : -two63 ≤ z) (h2 : z < two63) : wrapInt z = z := by
  unfold wrapInt two63 two64 at *
  omega

theorem wrapInt_sub_one (a : Int) : wrapInt (wrapInt a - 1) = wrapInt (a - 1) := by
  unfold wrapInt two63 two64
  omega

theorem wrapInt_lower (z : Int) : -two63 ≤ wrapInt z := by
  unfold wrapInt two63 two64
  omega

theorem wrapInt_upper (z : Int) : wrapInt z < two63 := by
  unfold wrapInt two63 two64
  omega

/-- The integer quotient `(n + c - 1) / c` is the ceiling of `n / c`. -/
theorem ediv_eq_ceilDiv (n c : Nat) (hc : 1 ≤ c) :
    ((n : Int) + c - 1) / (c : Int) = ceilDiv n c := by
  have hcpos : (0 : Int) < c := by exact_mod_cast hc
  have hcq : (0 : ℚ) < c := by exact_mod_cast hc
  have h1 := Int.emod_add_ediv ((n : Int) + c - 1) c
  have h2 := Int.emod_nonneg ((n : Int) + c - 1) (ne_of_gt hcpos)
  have h3 := Int.emod_lt_of_pos ((n : Int) + c - 1) hcpos
  set q := ((n : Int) + c - 1) / (c : Int) with hq
  symm
  unfold ceilDiv
  rw [Int.ceil_eq_iff]
  constructor
  · rw [lt_div_iff₀ hcq]
    have : (q - 1) * (c : Int) < n := by nlinarith
    exact_mod_cast this
  · rw [div_le_iff₀ hcq]
    have : (n : Int) ≤ q * c := by nlinarith
    exact_mod_cast this

/-- Without overflow, line 84 computes the ceiling of `n / c`. -/
theorem rowsOf_eq_ceilDiv (c n : Nat) (hc : 1 ≤ c) (hsum : (n : Int) + c - 1 < two63) :
    rowsOf c n = ceilDiv n c := by
  rw [← ediv_eq_ceilDiv n c hc]
  unfold rowsOf divInt subInt addInt
  rw [wrapInt_sub_one]
  have hnn : (0 : Int) ≤ (n : Int) + c - 1 := by omega
  rw [wrapInt_of_range (by unfold two63; omega) hsum]
  rw [Int.tdiv_eq_ediv hnn (by omega)]
  have hq0 : 0 ≤ ((n : Int) + c - 1) / (c : Int) := Int.ediv_nonneg hnn (by omega)
  have hq1 : ((n : Int) + c - 1) / (c : Int) ≤ (n : Int) + c - 1 :=
    Int.ediv_le_self _ hnn
  exact wrapInt_of_range (by unfold two63; omega) (by omega)

theorem ceilDiv_nonneg (n c : Nat) : 0 ≤ ceilDiv n c := by
  unfold ceilDiv
  exact Int.ceil_nonneg (by positivity)

theorem imageRect_of_le {x0 y0 x1 y1 : Int} (hx : x0 ≤ x1) (hy : y0 ≤ y1) :
    imageRect x0 y0 x1 y1 = ⟨x0, y0, x1, y1⟩ := by
  unfold imageRect
  simp [not_lt.mpr hx, not_lt.mpr hy]

/-- Without overflow, the rectangle of the canvas is `c * w` by
`ceil(n / c) * h` at the origin. -/
theorem canvasRect_of_noWrap (c n w h : Nat) (hc : 1 ≤ c) (hf : NoWrap c n w h) :
    canvasRect c n w h = ⟨0, 0, (c : Int) * w, ceilDiv n c * h⟩ := by
  obtain ⟨hsum, hw, hh⟩ := hf
  have hr := ceilDiv_nonneg n c
  have hw0 : (0 : Int) ≤ (c : Int) * w := mul_nonneg (Int.ofNat_nonneg c) (Int.ofNat_nonneg w)
  have hh0 : (0 : Int) ≤ ceilDiv n c * h := mul_nonneg hr (Int.ofNat_nonneg h)
  unfold canvasRect outWidthOf outHeightOf mulInt
  rw [rowsOf_eq_ceilDiv c n hc hsum,
    wrapInt_of_range (by unfold two63; omega) hw,
    wrapInt_of_range (by unfold two63; omega) hh]
  exact imageRect_of_le hw0 hh0

theorem Fits.noWrap {c n w h : Nat} (hf : Fits c n w h) : NoWrap c n w h :=
  ⟨hf.1, hf.2.1, hf.2.2.2.1⟩

theorem Fits.sizeOk {c n w h : Nat} (hf : Fits c n w h) : SizeOk c n w h :=
  ⟨hf.2.2.1, hf.2.2.2.2⟩

theorem canvasRect_of_fits (c n w h : Nat) (hc : 1 ≤ c) (hf : Fits c n w h) :
    canvasRect c n w h = ⟨0, 0, (c : Int) * w, ceilDiv n c * h⟩ :=
  canvasRect_of_noWrap c n w h hc hf.noWrap

/-- The size check of `image.NewRGBA` on sizes that pass it. -/
theorem mul3NonNeg_of_ok (a b : Int) (ha : 0 ≤ a) (hb : 0 ≤ b) (h1 : 4 * a < two64)
    (h2 : 4 * a * b < two63) : mul3NonNeg 4 a b = 4 * a * b := by
  unfold mul3NonNeg
  have e1 : ¬ ((4 : Int) < 0 ∨ a < 0 ∨ b < 0) := by omega
  have e2 : ¬ (4 * a ≥ two64) := by omega
  have e3 : ¬ (4 * a * b ≥ two64) := by
    unfold two63 two64 at *; omega
  have e4 : ¬ (4 * a * b ≥ two63) := by omega
  rw [if_neg e1, if_neg e2, if_neg e3, if_neg e4]

/-- The size check of `image.NewRGBA` on sizes that do not pass it. -/
theorem mul3NonNeg_of_not_ok (a b : Int)
    (h : ¬ (4 * a < two64 ∧ 4 * a * b < two63)) : mul3NonNeg 4 a b = -1 := by
  unfold mul3NonNeg
  split_ifs with e1 e2 e3 e4
  · rfl
  · rfl
  · rfl
  · rfl
  · exact absurd ⟨by omega, by omega⟩ h

/-- The width and the height of the canvas rectangle without overflow. -/
theorem canvas_dx_dy (c n w h : Nat) (hf : NoWrap c n w h) :
    (⟨0, 0, (c : Int) * w, ceilDiv n c * h⟩ : Rectangle).dx = (c : Int) * w ∧
    (⟨0, 0, (c : Int) * w, ceilDiv n c * h⟩ : Rectangle).dy = ceilDiv n c * h := by
  obtain ⟨hsum, hw, hh⟩ := hf
  have hr := ceilDiv_nonneg n c
  have hw0 : (0 : Int) ≤ (c : Int) * w := mul_nonneg (Int.ofNat_nonneg c) (Int.ofNat_nonneg w)
  have hh0 : (0 : Int) ≤ ceilDiv n c * h := mul_nonneg hr (Int.ofNat_nonneg h)
  constructor
  · simp only [Rectangle.dx, subInt, sub_zero]
    exact wrapInt_of_range (by unfold two63; omega) hw
  · simp only [Rectangle.dy, subInt, sub_zero]
    exact wrapInt_of_range (by unfold two63; omega) hh

/-- Without overflow, `image.NewRGBA` returns the zeroed canvas when the byte
size passes the size check and the allocation succeeds. -/
theorem newRGBA_of_ok (makeOk : Int → Bool) (c n w h : Nat) (hf : NoWrap c n w h)
    (hs : SizeOk c n w h) (hmake : makeOk (4 * ((c : Int) * w) * (ceilDiv n c * h)) = true) :
    newRGBA makeOk ⟨0, 0, (c : Int) * w, ceilDiv n c * h⟩ =
      some ⟨⟨0, 0, (c : Int) * w, ceilDiv n c * h⟩, fun _ _ => Color.zero⟩ := by
  have hr := ceilDiv_nonneg n c
  have hw0 : (0 : Int) ≤ (c : Int) * w := mul_nonneg (Int.ofNat_nonneg c) (Int.ofNat_nonneg w)
  have hh0 : (0 : Int) ≤ ceilDiv n c * h := mul_nonneg hr (Int.ofNat_nonneg h)
  have hp : (0 : Int) ≤ 4 * ((c : Int) * w) * (ceilDiv n c * h) :=
    mul_nonneg (mul_nonneg (by norm_num) hw0) hh0
  obtain ⟨hdx, hdy⟩ := canvas_dx_dy c n w h hf
  unfold newRGBA
  rw [hdx, hdy, mul3NonNeg_of_ok _ _ hw0 hh0 hs.1 hs.2, if_neg (not_lt.mpr hp), hmake]
  rfl

/-- Without overflow, `image.NewRGBA` does not return when the byte size fails
the size check or the allocation fails. -/
theorem newRGBA_of_not_ok (makeOk : Int → Bool) (c n w h : Nat) (hf : NoWrap c n w h)
    (hbad : ¬ SizeOk c n w h ∨ makeOk (4 * ((c : Int) * w) * (ceilDiv n c * h)) = false) :
    newRGBA makeOk ⟨0, 0, (c : Int) * w, ceilDiv n c * h⟩ = none := by
  have hr := ceilDiv_nonneg n c
  have hw0 : (0 : Int) ≤ (c : Int) * w := mul_nonneg (Int.ofNat_nonneg c) (Int.ofNat_nonneg w)
  have hh0 : (0 : Int) ≤ ceilDiv n c * h := mul_nonneg hr (Int.ofNat_nonneg h)
  obtain ⟨hdx, hdy⟩ := canvas_dx_dy c n w h hf
  unfold newRGBA
  rw [hdx, hdy]
  by_cases hs : SizeOk c n w h
  · rcases hbad with hbad | hbad
    · exact absurd hs hbad
    · rw [mul3NonNeg_of_ok _ _ hw0 hh0 hs.1 hs.2, hbad]
      simp
  · rw [mul3NonNeg_of_not_ok _ _ hs]
    simp

theorem drawLoop_rect (columns imgWidth imgHeight : Int) (images : List Image) (i : Nat)
    (dst : RGBA) : (drawLoop columns imgWidth imgHeight images i dst).rect = dst.rect := by
  induction images generalizing i dst with
  | nil => rfl
  | cons img rest ih =>
    unfold drawLoop
    rw [ih]
    rfl

/-- Without overflow, when the byte size passes the size check and the
allocation succeeds, compositing allocates the canvas and runs the drawing
loop on it. -/
theorem composite_of_ok (makeOk : Int → Bool) (c w h : Nat) (images : List Image)
    (hc : 1 ≤ c) (hf : NoWrap c images.length w h) (hs : SizeOk c images.length w h)
    (hmake : makeOk (4 * ((c : Int) * w) * (ceilDiv images.length c * h)) = true) :
    composite makeOk c images w h =
      .ok (drawLoop c w h images 0
        ⟨⟨0, 0, (c : Int) * w, ceilDiv images.length c * h⟩, fun _ _ => Color.zero⟩) := by
  unfold composite
  have hc0 : ¬ ((c : Int) = 0) := by omega
  rw [if_neg hc0, canvasRect_of_noWrap c _ w h hc hf, newRGBA_of_ok makeOk c _ w h hf hs hmake]

/-- Without overflow, compositing stops in `image.NewRGBA` when the byte size
fails the size check or the allocation fails. -/
theorem composite_of_not_ok (makeOk : Int → Bool) (c w h : Nat) (images : List Image)
    (hc : 1 ≤ c) (hf : NoWrap c images.length w h)
    (hbad : ¬ SizeOk c images.length w h ∨
      makeOk (4 * ((c : Int) * w) * (ceilDiv images.length c * h)) = false) :
    composite makeOk c images w h = .error Panic.newRGBA := by
  unfold composite
  have hc0 : ¬ ((c : Int) = 0) := by omega
  rw [if_neg hc0, canvasRect_of_noWrap c _ w h hc hf, newRGBA_of_not_ok makeOk c _ w h hf hbad]

/-! ## Colour conversion -/

theorem highByte_mul (v : Fin 256) : highByte (v.val * 257) = v := by
  apply Fin.ext
  have hlt := v.isLt
  have hq : v.val * 257 / 256 = v.val := by omega
  simp only [highByte, hq]
  exact Nat.mod_eq_of_lt hlt

/-- A source pixel that is a `color.RGBA` is stored unchanged. -/
theorem toRGBA_rgba (c : Color) : (GoColor.rgba c).toRGBA = c := by
  cases c
  simp only [GoColor.toRGBA, GoColor.rgba64, highByte_mul]

/-! ## Rectangles and drawing -/

theorem contains_iff (r : Rectangle) (x y : Int) :
    r.contains x y = true ↔ r.minX ≤ x ∧ x < r.maxX ∧ r.minY ≤ y ∧ y < r.maxY := by
  simp [Rectangle.contains, and_assoc]

/-- A point of an intersection is in both rectangles. -/
theorem contains_intersect {r s : Rectangle} {x y : Int}
    (h : (r.intersect s).contains x y = true) :
    r.contains x y = true ∧ s.contains x y = true := by
  rw [contains_iff] at h
  rw [contains_iff, contains_iff]
  unfold Rectangle.intersect at h
  by_cases he : (Rectangle.empty ⟨if r.minX < s.minX then s.minX else r.minX,
     if r.minY < s.minY then s.minY else r.minY,
     if r.maxX > s.maxX then s.maxX else r.maxX,
     if r.maxY > s.maxY then s.maxY else r.maxY⟩) = true
  · simp only [he, if_true] at h
    omega
  · simp only [he] at h
    simp only [Bool.false_eq_true, if_false] at h
    split_ifs at h <;> omega

/-- A non-empty rectangle inside another one is its own intersection with it. -/
theorem intersect_of_subset {r s : Rectangle} (hx : r.minX < r.maxX) (hy : r.minY < r.maxY)
    (h1 : s.minX ≤ r.minX) (h2 : s.minY ≤ r.minY) (h3 : r.maxX ≤ s.maxX)
    (h4 : r.maxY ≤ s.maxY) : r.intersect s = r := by
  unfold Rectangle.intersect
  simp only [Rectangle.empty]
  rw [if_neg (by omega : ¬ r.minX < s.minX), if_neg (by omega : ¬ r.minY < s.minY),
    if_neg (by omega : ¬ r.maxX > s.maxX), if_neg (by omega : ¬ r.maxY > s.maxY)]
  simp [not_le.mpr hx, not_le.mpr hy]

/-- What `draw.Draw` writes lies in the rectangle it is given and in the canvas. -/
theorem clipRect_contains {dst : RGBA} {r : Rectangle} {src : Image} {x y : Int}
    (h : (clipRect dst r src).contains x y = true) :
    r.contains x y = true ∧ dst.rect.contains x y = true := by
  unfold clipRect at h
  exact contains_intersect (contains_intersect h).1

/-- A pixel outside the rectangle given to `draw.Draw` keeps its colour. -/
theorem drawSrc_pix_of_not_contains (dst : RGBA) (r : Rectangle) (src : Image) (x y : Int)
    (h : r.contains x y = false) : (drawSrc dst r src).pix x y = dst.pix x y := by
  unfold drawSrc
  simp only
  split
  · rename_i hc
    rw [(clipRect_contains hc).1] at h
    exact absurd h (by simp)
  · rfl

/-- A pixel outside the canvas keeps its colour. -/
theorem drawSrc_pix_of_not_in_canvas (dst : RGBA) (r : Rectangle) (src : Image) (x y : Int)
    (h : dst.rect.contains x y = false) : (drawSrc dst r src).pix x y = dst.pix x y := by
  unfold drawSrc
  simp only
  split
  · rename_i hc
    rw [(clipRect_contains hc).2] at h
    exact absurd h (by simp)
  · rfl

/-- Frame property of the drawing loop: a pixel that lies in no destination
rectangle of the loop keeps its colour. -/
theorem drawLoop_pix_frame (columns imgWidth imgHeight : Int) (images : List Image) (i : Nat)
    (dst : RGBA) (x y : Int)
    (h : ∀ j, j < images.length →
      (destRect columns imgWidth imgHeight (i + j)).contains x y = false) :
    (drawLoop columns imgWidth imgHeight images i dst).pix x y = dst.pix x y := by
  induction images generalizing i dst with
  | nil => rfl
  | cons img rest ih =>
    unfold drawLoop
    rw [ih]
    · exact drawSrc_pix_of_not_contains _ _ _ _ _ (by simpa using h 0 (by simp))
    · intro j hj
      have := h (j + 1) (by simpa using hj)
      rwa [show i + (j + 1) = i + 1 + j by omega] at this

/-- A pixel outside the canvas is never written by the drawing loop. -/
theorem drawLoop_pix_outside (columns imgWidth imgHeight : Int) (images : List Image) (i : Nat)
    (dst : RGBA) (x y : Int) (h : dst.rect.contains x y = false) :
    (drawLoop columns imgWidth imgHeight images i dst).pix x y = dst.pix x y := by
  induction images generalizing i dst with
  | nil => rfl
  | cons img rest ih =>
    unfold drawLoop
    rw [ih _ _ (by simpa [drawSrc] using h)]
    exact drawSrc_pix_of_not_in_canvas _ _ _ _ _ h

/-- The pixel written by the image of index `j` of the loop, when no later
image of the loop has it in its destination rectangle. -/
theorem drawLoop_pix_hit (columns imgWidth imgHeight : Int) (images : List Image) (i : Nat)
    (dst : RGBA) (x y : Int) (j : Nat) (hj : j < images.length)
    (hin : (clipRect dst (destRect columns imgWidth imgHeight (i + j))
      (images.get ⟨j, hj⟩)).contains x y = true)
    (hlater : ∀ k, j < k → k < images.length →
      (destRect columns imgWidth imgHeight (i + k)).contains x y = false) :
    (drawLoop columns imgWidth imgHeight images i dst).pix x y =
      ((images.get ⟨j, hj⟩).colorAt
        (subInt x (destRect columns imgWidth imgHeight (i + j)).minX)
        (subInt y (destRect columns imgWidth imgHeight (i + j)).minY)).toRGBA := by
  induction images generalizing i dst j with
  | nil => simp at hj
  | cons img rest ih =>
    unfold drawLoop
    cases j with
    | zero =>
      rw [drawLoop_pix_frame]
      · simp only [List.get_eq_getElem, List.getElem_cons_zero, Nat.add_zero] at hin ⊢
        unfold drawSrc
        simp only [hin, if_true]
      · intro k hk
        have := hlater (k + 1) (by omega) (by simpa using hk)
        rwa [show i + (k + 1) = i + 1 + k by omega] at this
    | succ j =>
      have hj2 : j < rest.length := by simpa using hj
      have e : i + (j + 1) = i + 1 + j := by omega
      simp only [List.get_eq_getElem, List.getElem_cons_succ] at hin ⊢
      rw [e] at hin ⊢
      refine ih (i + 1) _ j hj2 ?_ ?_
      · simpa [clipRect, drawSrc] using hin
      · intro k hk1 hk2
        have := hlater (k + 1) (by omega) (by simpa using hk2)
        rwa [show i + (k + 1) = i + 1 + k by omega] at this

/-! ## The grid without overflow -/

theorem ceilDiv_eq_nat (n c : Nat) (hc : 1 ≤ c) :
    ceilDiv n c = (((n + c - 1) / c : Nat) : Int) := by
  rw [← ediv_eq_ceilDiv n c hc, Int.ofNat_ediv]
  congr 1
  omega

/-- The row of an image of index below `n` is below the number of rows. -/
theorem row_lt_ceilDiv (c n i : Nat) (hc : 1 ≤ c) (hi : i < n) :
    ((i / c : Nat) : Int) + 1 ≤ ceilDiv n c := by
  rw [ceilDiv_eq_nat n c hc]
  have h1 : (i + c) / c = i / c + 1 := Nat.add_div_right i (by omega)
  have h2 : (i + c) / c ≤ (n + c - 1) / c := Nat.div_le_div_right (by omega)
  omega

/-- Without overflow the destination rectangle of image `i` is the cell of
column `i % c` and row `i / c`. -/
theorem destRect_eq (c w h i : Nat) (hi : (i : Int) < two63)
    (hx : ((i % c : Nat) : Int) * w + w < two63)
    (hy : ((i / c : Nat) : Int) * h + h < two63) :
    destRect c w h i =
      ⟨((i % c : Nat) : Int) * w, ((i / c : Nat) : Int) * h,
       ((i % c : Nat) : Int) * w + w, ((i / c : Nat) : Int) * h + h⟩ := by
  have hx0 : (0 : Int) ≤ ((i % c : Nat) : Int) * w := by positivity
  have hy0 : (0 : Int) ≤ ((i / c : Nat) : Int) * h := by positivity
  have hw0 : (0 : Int) ≤ (w : Int) := Int.ofNat_nonneg w
  have hh0 : (0 : Int) ≤ (h : Int) := Int.ofNat_nonneg h
  have hd : ((i / c : Nat) : Int) ≤ i := by exact_mod_cast Nat.div_le_self i c
  have hd0 : (0 : Int) ≤ ((i / c : Nat) : Int) := Int.ofNat_nonneg _
  unfold destRect modInt divInt mulInt addInt
  simp only
  rw [← Int.ofNat_tmod, ← Int.ofNat_tdiv,
    wrapInt_of_range (z := ((i / c : Nat) : Int)) (by unfold two63; omega) (by omega),
    wrapInt_of_range (z := ((i % c : Nat) : Int) * w) (by unfold two63; omega) (by omega),
    wrapInt_of_range (z := ((i / c : Nat) : Int) * h) (by unfold two63; omega) (by omega),
    wrapInt_of_range (z := ((i % c : Nat) : Int) * w + w) (by unfold two63; omega) hx,
    wrapInt_of_range (z := ((i / c : Nat) : Int) * h + h) (by unfold two63; omega) hy]
  exact imageRect_of_le (by omega) (by omega)

/-- The cell of image `i` ends inside the canvas, in both directions. -/
theorem cell_le_canvas (c n w h i : Nat) (hc : 1 ≤ c) (hi : i < n) :
    ((i % c : Nat) : Int) * w + w ≤ (c : Int) * w ∧
    ((i / c : Nat) : Int) * h + h ≤ ceilDiv n c * h := by
  have hm : ((i % c : Nat) : Int) + 1 ≤ c := by
    have := Nat.mod_lt i (show 0 < c by omega)
    omega
  have hr := row_lt_ceilDiv c n i hc hi
  have hw0 : (0 : Int) ≤ (w : Int) := Int.ofNat_nonneg w
  have hh0 : (0 : Int) ≤ (h : Int) := Int.ofNat_nonneg h
  constructor
  · nlinarith [mul_le_mul_of_nonneg_right hm hw0]
  · nlinarith [mul_le_mul_of_nonneg_right hr hh0]

/-- Under `Fits`, the destination rectangle of every image is its cell. -/
theorem destRect_of_fits (c n w h i : Nat) (hc : 1 ≤ c) (hi : i < n) (hf : Fits c n w h) :
    destRect c w h i =
      ⟨((i % c : Nat) : Int) * w, ((i / c : Nat) : Int) * h,
       ((i % c : Nat) : Int) * w + w, ((i / c : Nat) : Int) * h + h⟩ := by
  obtain ⟨hsum, hw, _, hh, _⟩ := hf
  obtain ⟨h1, h2⟩ := cell_le_canvas c n w h i hc hi
  exact destRect_eq c w h i (by omega) (by omega) (by omega)

/-- Two different indices have different columns or different rows. -/
theorem cell_ne (c i j : Nat) (hij : i ≠ j) : i % c ≠ j % c ∨ i / c ≠ j / c := by
  by_contra hcon
  push_neg at hcon
  have h1 := Nat.mod_add_div i c
  have h2 := Nat.mod_add_div j c
  rw [hcon.1, hcon.2] at h1
  omega

/-- Cells of different indices have no pixel in common. -/
theorem cells_disjoint (c w h i j : Nat) (hij : i ≠ j) (x y : Int)
    (hi : ((i % c : Nat) : Int) * w ≤ x ∧ x < ((i % c : Nat) : Int) * w + w ∧
      ((i / c : Nat) : Int) * h ≤ y ∧ y < ((i / c : Nat) : Int) * h + h)
    (hj : ((j % c : Nat) : Int) * w ≤ x ∧ x < ((j % c : Nat) : Int) * w + w ∧
      ((j / c : Nat) : Int) * h ≤ y ∧ y < ((j / c : Nat) : Int) * h + h) : False := by
  have hw0 : (0 : Int) ≤ (w : Int) := Int.ofNat_nonneg w
  have hh0 : (0 : Int) ≤ (h : Int) := Int.ofNat_nonneg h
  rcases cell_ne c i j hij with hne | hne
  · rcases Nat.lt_or_gt_of_ne hne with hlt | hlt
    · have : ((i % c : Nat) : Int) + 1 ≤ ((j % c : Nat) : Int) := by omega
      nlinarith [mul_le_mul_of_nonneg_right this hw0]
    · have : ((j % c : Nat) : Int) + 1 ≤ ((i % c : Nat) : Int) := by omega
      nlinarith [mul_le_mul_of_nonneg_right this hw0]
  · rcases Nat.lt_or_gt_of_ne hne with hlt | hlt
    · have : ((i / c : Nat) : Int) + 1 ≤ ((j / c : Nat) : Int) := by omega
      nlinarith [mul_le_mul_of_nonneg_right this hh0]
    · have : ((j / c : Nat) : Int) + 1 ≤ ((i / c : Nat) : Int) := by omega
      nlinarith [mul_le_mul_of_nonneg_right this hh0]

/-! ## The loading loop -/

theorem Image.dx_eq (img : Image) : img.bounds.dx = img.width := by
  have h1 := img.width_lt
  have h2 : (0 : Int) ≤ (img.width : Int) := Int.ofNat_nonneg _
  have h3 : (0 : Int) ≤ (img.height : Int) := Int.ofNat_nonneg _
  unfold Image.bounds
  rw [imageRect_of_le h2 h3]
  simp only [Rectangle.dx, subInt, sub_zero]
  exact wrapInt_of_range (by unfold two63; omega) h1

theorem Image.dy_eq (img : Image) : img.bounds.dy = img.height := by
  have h1 := img.height_lt
  have h2 : (0 : Int) ≤ (img.width : Int) := Int.ofNat_nonneg _
  have h3 : (0 : Int) ≤ (img.height : Int) := Int.ofNat_nonneg _
  unfold Image.bounds
  rw [imageRect_of_le h2 h3]
  simp only [Rectangle.dy, subInt, sub_zero]
  exact wrapInt_of_range (by unfold two63; omega) h1

/-- The test of line 56 is the negation of the specification's extension test. -/
theorem ext_test_eq (name : String) :
    (toLower (filepathExt name) != ".jpg" && toLower (filepathExt name) != ".jpeg" &&
      toLower (filepathExt name) != ".png") = !supportedExt name := by
  unfold supportedExt
  by_cases h1 : toLower (filepathExt name) = ".jpg" <;>
  by_cases h2 : toLower (filepathExt name) = ".jpeg" <;>
  by_cases h3 : toLower (filepathExt name) = ".png" <;>
  simp [h1, h2, h3]

/-- An entry that is not a successfully decoded candidate changes nothing but
the trace, and the step is not fatal. -/
theorem loadStep_skip (folder : String) (st : LoadState) (e : DirEntry)
    (h : candidateImage e = none) :
    ∃ tr, loadStep folder st e = .ok { st with trace := tr } ∧
      (∀ ev ∈ tr, ev ∈ st.trace ∨ ev.isLoad = true) := by
  unfold candidateImage at h
  unfold loadStep
  by_cases hd : e.isDir = true
  · exact ⟨st.trace, by simp [hd], fun ev hev => Or.inl hev⟩
  · simp only [hd, Bool.false_eq_true, if_false] at h ⊢
    simp only [ext_test_eq]
    by_cases hs : supportedExt e.name = true
    · simp only [hs, if_true, Bool.not_true, Bool.false_eq_true, if_false] at h ⊢
      cases hf : e.file with
      | openError =>
        refine ⟨_, rfl, ?_⟩
        intro ev hev
        simp only [List.mem_append, List.mem_singleton] at hev
        rcases hev with (hev | hev) | hev
        · exact Or.inl hev
        · exact Or.inr (by rw [hev]; simpa [Event.isLoad] using hs)
        · exact Or.inr (by rw [hev]; rfl)
      | decodeError =>
        refine ⟨_, rfl, ?_⟩
        intro ev hev
        simp only [List.mem_append, List.mem_singleton] at hev
        rcases hev with (hev | hev) | hev
        · exact Or.inl hev
        · exact Or.inr (by rw [hev]; simpa [Event.isLoad] using hs)
        · exact Or.inr (by rw [hev]; rfl)
      | decoded img => simp [hf] at h
    · simp only [Bool.not_eq_true] at hs
      exact ⟨st.trace, by simp [hs], fun ev hev => Or.inl hev⟩

/-- The step on a successfully decoded candidate: lines 71-77. -/
theorem loadStep_decoded (folder : String) (st : LoadState) (e : DirEntry) (img : Image)
    (h : candidateImage e = some img) :
    loadStep folder st e =
      if st.images.length = 0 then
        .ok ⟨st.images ++ [img], img.width, img.height,
          st.trace ++ [Event.openFile folder e.name]⟩
      else if (img.width : Int) ≠ st.imgWidth ∨ (img.height : Int) ≠ st.imgHeight then
        .error (st.trace ++ [Event.openFile folder e.name], e.name)
      else .ok ⟨st.images ++ [img], st.imgWidth, st.imgHeight,
          st.trace ++ [Event.openFile folder e.name]⟩ := by
  unfold candidateImage at h
  unfold loadStep
  by_cases hd : e.isDir = true
  · simp [hd] at h
  · simp only [hd, Bool.false_eq_true, if_false] at h ⊢
    simp only [ext_test_eq]
    by_cases hs : supportedExt e.name = true
    · simp only [hs, if_true, Bool.not_true, Bool.false_eq_true, if_false] at h ⊢
      cases hf : e.file with
      | openError => simp [hf] at h
      | decodeError => simp [hf] at h
      | decoded img1 =>
        simp only [hf, Option.some.injEq] at h
        subst h
        simp only [Image.dx_eq, Image.dy_eq]
    · simp [hs] at h

theorem supported_of_candidate {e : DirEntry} {img : Image}
    (h : candidateImage e = some img) : supportedExt e.name = true := by
  unfold candidateImage at h
  by_contra hs
  simp [hs] at h

theorem mismatches_of_none {w h : Int} {e : DirEntry} (hc : candidateImage e = none) :
    mismatches w h e = false := by
  unfold mismatches
  rw [hc]

theorem mismatches_of_some {w h : Int} {e : DirEntry} {img : Image}
    (hc : candidateImage e = some img) :
    mismatches w h e = decide ((img.width : Int) ≠ w ∨ (img.height : Int) ≠ h) := by
  unfold mismatches
  rw [hc]

/-- Every event added by one iteration is a loading event. -/
theorem loadStep_trace (folder : String) (st : LoadState) (e : DirEntry) :
    ∀ ev ∈ loadTrace (loadStep folder st e), ev ∈ st.trace ∨ ev.isLoad = true := by
  cases hc : candidateImage e with
  | none =>
    obtain ⟨tr, htr, hev⟩ := loadStep_skip folder st e hc
    rw [htr]
    exact hev
  | some img =>
    have hs := supported_of_candidate hc
    have hopen : (Event.openFile folder e.name).isLoad = true := by
      simpa [Event.isLoad] using hs
    rw [loadStep_decoded folder st e img hc]
    intro ev hev
    split_ifs at hev <;>
    · simp only [loadTrace, List.mem_append, List.mem_singleton] at hev
      rcases hev with hev | hev
      · exact Or.inl hev
      · exact Or.inr (by rw [hev]; exact hopen)

/-- The loading loop only adds loading events to the trace. -/
theorem loadLoop_trace (folder : String) (files : List DirEntry) (st : LoadState)
    (h : ∀ ev ∈ st.trace, ev.isLoad = true) :
    ∀ ev ∈ loadTrace (loadLoop folder files st), ev.isLoad = true := by
  induction files generalizing st with
  | nil => exact h
  | cons e rest ih =>
    have hstep := loadStep_trace folder st e
    unfold loadLoop
    cases hs : loadStep folder st e with
    | error err =>
      rw [hs] at hstep
      intro ev hev
      rcases hstep ev hev with h1 | h1
      · exact h ev h1
      · exact h1
    | ok st1 =>
      rw [hs] at hstep
      apply ih
      intro ev hev
      rcases hstep ev hev with h1 | h1
      · exact h ev h1
      · exact h1

/-- The loading loop from a state that already holds an image: it is fatal at
the first candidate whose size differs from the canonical one, and otherwise
appends every successfully decoded candidate. -/
theorem loadLoop_nonempty (folder : String) (files : List DirEntry) (st : LoadState)
    (hne : st.images ≠ []) :
    (∀ e, files.find? (mismatches st.imgWidth st.imgHeight) = some e →
      ∃ tr, loadLoop folder files st = .error (tr, e.name)) ∧
    (files.find? (mismatches st.imgWidth st.imgHeight) = none →
      ∃ tr, loadLoop folder files st =
        .ok ⟨st.images ++ files.filterMap candidateImage, st.imgWidth, st.imgHeight, tr⟩) := by
  induction files generalizing st with
  | nil =>
    refine ⟨fun e he => by simp at he, fun _ => ⟨st.trace, ?_⟩⟩
    simp [loadLoop]
  | cons e rest ih =>
    have hlen : ¬ (st.images.length = 0) := by
      simpa [List.length_eq_zero] using hne
    cases hc : candidateImage e with
    | none =>
      obtain ⟨tr, htr, -⟩ := loadStep_skip folder st e hc
      have hm : mismatches st.imgWidth st.imgHeight e = false := mismatches_of_none hc
      have := ih { st with trace := tr } hne
      simp only [List.find?_cons, hm, List.filterMap_cons, hc]
      unfold loadLoop
      rw [htr]
      exact this
    | some img =>
      have hstep := loadStep_decoded folder st e img hc
      rw [if_neg hlen] at hstep
      have hm := mismatches_of_some (w := st.imgWidth) (h := st.imgHeight) hc
      by_cases hbad : (img.width : Int) ≠ st.imgWidth ∨ (img.height : Int) ≠ st.imgHeight
      · rw [if_pos hbad] at hstep
        rw [decide_eq_true hbad] at hm
        simp only [List.find?_cons, hm]
        unfold loadLoop
        rw [hstep]
        refine ⟨?_, fun h => by simp at h⟩
        intro e1 he1
        simp only [Option.some.injEq] at he1
        subst he1
        exact ⟨_, rfl⟩
      · rw [if_neg hbad] at hstep
        rw [decide_eq_false hbad] at hm
        have := ih ⟨st.images ++ [img], st.imgWidth, st.imgHeight,
          st.trace ++ [Event.openFile folder e.name]⟩ (by simp)
        simp only [List.find?_cons, hm, List.filterMap_cons, hc]
        unfold loadLoop
        rw [hstep]
        simpa using this

/-- The loading loop from a state without image: nothing is loaded when the
listing has no successfully decoded candidate; otherwise the first one sets
the canonical size and the loop goes on as in `loadLoop_nonempty`. -/
theorem loadLoop_empty (folder : String) (files : List DirEntry) (st : LoadState)
    (hempty : st.images = []) :
    (firstImage files = none →
      ∃ tr, loadLoop folder files st = .ok ⟨[], st.imgWidth, st.imgHeight, tr⟩) ∧
    (∀ img0, firstImage files = some img0 →
      (∀ e, files.find? (mismatches img0.width img0.height) = some e →
        ∃ tr, loadLoop folder files st = .error (tr, e.name)) ∧
      (files.find? (mismatches img0.width img0.height) = none →
        ∃ tr, loadLoop folder files st =
          .ok ⟨files.filterMap candidateImage, img0.width, img0.height, tr⟩)) := by
  induction files generalizing st with
  | nil =>
    refine ⟨fun _ => ⟨st.trace, ?_⟩, fun img0 h => by simp [firstImage] at h⟩
    simp [loadLoop, ← hempty]
  | cons e rest ih =>
    cases hc : candidateImage e with
    | none =>
      obtain ⟨tr, htr, -⟩ := loadStep_skip folder st e hc
      have hfirst : firstImage (e :: rest) = firstImage rest := by
        simp [firstImage, List.filterMap_cons, hc]
      have := ih { st with trace := tr } hempty
      rw [hfirst]
      simp only [List.find?_cons, mismatches_of_none hc, List.filterMap_cons, hc]
      unfold loadLoop
      rw [htr]
      exact this
    | some img =>
      have hstep := loadStep_decoded folder st e img hc
      rw [if_pos (by simp [hempty])] at hstep
      have hfirst : firstImage (e :: rest) = some img := by
        simp [firstImage, List.filterMap_cons, hc]
      rw [hfirst]
      refine ⟨fun h => by simp at h, ?_⟩
      intro img0 himg0
      simp only [Option.some.injEq] at himg0
      subst himg0
      have hm : mismatches img.width img.height e = false := by
        rw [mismatches_of_some hc]
        simp
      have := loadLoop_nonempty folder rest
        ⟨st.images ++ [img], img.width, img.height,
          st.trace ++ [Event.openFile folder e.name]⟩ (by simp)
      simp only [List.find?_cons, hm, List.filterMap_cons, hc]
      unfold loadLoop
      rw [hstep]
      simpa [hempty] using this

/-! ## Compositing without overflow -/

/-- A non-negative value below a bound that is an `int` is not changed by
wrapping. -/
theorem wrapInt_of_bounds {z B : Int} (h0 : 0 ≤ z) (h1 : z ≤ B) (h2 : B < two63) :
    wrapInt z = z :=
  wrapInt_of_range (by unfold two63; omega) (by omega)

/-- Under `Fits`, `draw.Draw` clips nothing: what it writes for image `i` is
the whole cell. -/
theorem clipRect_of_fits (c n w h i : Nat) (hc : 1 ≤ c) (hi : i < n) (hf : Fits c n w h)
    (hw : 1 ≤ w) (hh : 1 ≤ h) (img : Image) (hiw : img.width = w) (hih : img.height = h)
    (dst : RGBA) (hdst : dst.rect = ⟨0, 0, (c : Int) * w, ceilDiv n c * h⟩) :
    clipRect dst (destRect c w h i) img = destRect c w h i := by
  obtain ⟨h1, h2⟩ := cell_le_canvas c n w h i hc hi
  have hx0 : (0 : Int) ≤ ((i % c : Nat) : Int) * w := by positivity
  have hy0 : (0 : Int) ≤ ((i / c : Nat) : Int) * h := by positivity
  have hw1 : (1 : Int) ≤ (w : Int) := by exact_mod_cast hw
  have hh1 : (1 : Int) ≤ (h : Int) := by exact_mod_cast hh
  have hd := destRect_of_fits c n w h i hc hi hf
  obtain ⟨hsum, hcw, _, hrh, _⟩ := hf
  have hb : img.bounds = ⟨0, 0, (w : Int), (h : Int)⟩ := by
    unfold Image.bounds
    rw [hiw, hih]
    exact imageRect_of_le (by omega) (by omega)
  have b1 : ((i % c : Nat) : Int) * w ≤ (c : Int) * w := by omega
  have b2 : ((i / c : Nat) : Int) * h ≤ ceilDiv n c * h := by omega
  have b3 : (0 : Int) ≤ (w : Int) + ((i % c : Nat) : Int) * w := by omega
  have b4 : (w : Int) + ((i % c : Nat) : Int) * w ≤ (c : Int) * w := by omega
  have b5 : (0 : Int) ≤ (h : Int) + ((i / c : Nat) : Int) * h := by omega
  have b6 : (h : Int) + ((i / c : Nat) : Int) * h ≤ ceilDiv n c * h := by omega
  have hinner : (Rectangle.intersect
      ⟨((i % c : Nat) : Int) * w, ((i / c : Nat) : Int) * h,
        ((i % c : Nat) : Int) * w + w, ((i / c : Nat) : Int) * h + h⟩
      ⟨0, 0, (c : Int) * w, ceilDiv n c * h⟩) =
      ⟨((i % c : Nat) : Int) * w, ((i / c : Nat) : Int) * h,
        ((i % c : Nat) : Int) * w + w, ((i / c : Nat) : Int) * h + h⟩ :=
    intersect_of_subset (by simp only; omega) (by simp only; omega) (by simp only; omega)
      (by simp only; omega) (by simp only; omega) (by simp only; omega)
  have houter : (Rectangle.intersect
      ⟨((i % c : Nat) : Int) * w, ((i / c : Nat) : Int) * h,
        ((i % c : Nat) : Int) * w + w, ((i / c : Nat) : Int) * h + h⟩
      ⟨((i % c : Nat) : Int) * w, ((i / c : Nat) : Int) * h,
        (w : Int) + ((i % c : Nat) : Int) * w, (h : Int) + ((i / c : Nat) : Int) * h⟩) =
      ⟨((i % c : Nat) : Int) * w, ((i / c : Nat) : Int) * h,
        ((i % c : Nat) : Int) * w + w, ((i / c : Nat) : Int) * h + h⟩ :=
    intersect_of_subset (by simp only; omega) (by simp only; omega) (by simp only; omega)
      (by simp only; omega) (by simp only; omega) (by simp only; omega)
  have e1 := wrapInt_of_bounds hx0 b1 hcw
  have e2 := wrapInt_of_bounds hy0 b2 hrh
  have e3 := wrapInt_of_bounds b3 b4 hcw
  have e4 := wrapInt_of_bounds b5 b6 hrh
  unfold clipRect
  rw [hd, hdst, hb]
  simp only [Rectangle.add, subInt, addInt, sub_zero, zero_add, e1, e2, e3, e4]
  rw [hinner]
  exact houter

/-- Under `Fits`, after the drawing loop the cell of image `i` holds the pixels
of image `i` converted to `color.RGBA`, whatever the canvas held before. -/
theorem drawLoop_cell (c w h : Nat) (images : List Image) (hc : 1 ≤ c)
    (hsize : ∀ img ∈ images, img.width = w ∧ img.height = h)
    (hf : Fits c images.length w h) (i : Nat) (hi : i < images.length)
    (dx dy : Nat) (hdx : dx < w) (hdy : dy < h) (dst0 : RGBA)
    (hdst : dst0.rect = ⟨0, 0, (c : Int) * w, ceilDiv images.length c * h⟩) :
    (drawLoop c w h images 0 dst0).pix
        (((i % c : Nat) : Int) * w + dx) (((i / c : Nat) : Int) * h + dy) =
      ((images.get ⟨i, hi⟩).colorAt dx dy).toRGBA := by
  have hmem : images.get ⟨i, hi⟩ ∈ images := List.get_mem images i hi
  obtain ⟨hiw, hih⟩ := hsize _ hmem
  have hd := destRect_of_fits c images.length w h i hc hi hf
  have hclip := clipRect_of_fits c images.length w h i hc hi hf (by omega) (by omega)
    (images.get ⟨i, hi⟩) hiw hih dst0 hdst
  have hdx0 : (0 : Int) ≤ (dx : Int) := Int.ofNat_nonneg _
  have hdy0 : (0 : Int) ≤ (dy : Int) := Int.ofNat_nonneg _
  have hdxw : (dx : Int) < w := by exact_mod_cast hdx
  have hdyh : (dy : Int) < h := by exact_mod_cast hdy
  have hwlt : (w : Int) < two63 := by rw [← hiw]; exact (images.get ⟨i, hi⟩).width_lt
  have hhlt : (h : Int) < two63 := by rw [← hih]; exact (images.get ⟨i, hi⟩).height_lt
  have key := drawLoop_pix_hit c w h images 0 dst0
    (((i % c : Nat) : Int) * w + dx) (((i / c : Nat) : Int) * h + dy) i hi
    (by
      rw [Nat.zero_add, hclip, hd, contains_iff]
      simp only
      omega)
    (by
      intro k hk1 hk2
      rw [Nat.zero_add, destRect_of_fits c images.length w h k hc hk2 hf]
      by_contra hcon
      rw [Bool.not_eq_false, contains_iff] at hcon
      simp only at hcon
      exact cells_disjoint c w h i k (by omega) _ _
        ⟨by omega, by omega, by omega, by omega⟩ hcon)
  have ex : wrapInt (dx : Int) = dx := wrapInt_of_bounds hdx0 (le_of_lt hdxw) hwlt
  have ey : wrapInt (dy : Int) = dy := wrapInt_of_bounds hdy0 (le_of_lt hdyh) hhlt
  rw [key, Nat.zero_add, hd]
  simp only [subInt, add_sub_cancel_left]
  rw [ex, ey]

/-! ## Cells that no image is assigned to -/

/-- A point at or beyond the right edge handed to `image.Rect` is outside. -/
theorem imageRect_not_contains_x {x0 y0 x1 y1 px py : Int} (hx : x0 ≤ x1) (hp : x1 ≤ px) :
    (imageRect x0 y0 x1 y1).contains px py = false := by
  unfold imageRect Rectangle.contains
  simp only [not_lt.mpr hx, if_false]
  simp [not_lt.mpr hp]

/-- A point at or beyond the bottom edge handed to `image.Rect` is outside. -/
theorem imageRect_not_contains_y {x0 y0 x1 y1 px py : Int} (hy : y0 ≤ y1) (hp : y1 ≤ py) :
    (imageRect x0 y0 x1 y1).contains px py = false := by
  unfold imageRect Rectangle.contains
  simp only [not_lt.mpr hy, if_false]
  simp [not_lt.mpr hp]

/-- The coordinates of a rectangle built from `int`s are `int`s. -/
theorem imageRect_contains_lt {x0 y0 x1 y1 px py : Int} (hx0 : x0 < two63) (hx1 : x1 < two63)
    (hy0 : y0 < two63) (hy1 : y1 < two63)
    (h : (imageRect x0 y0 x1 y1).contains px py = true) : px < two63 ∧ py < two63 := by
  unfold imageRect Rectangle.contains at h
  simp only [Bool.and_eq_true, decide_eq_true_eq] at h
  split_ifs at h <;> simp only at h <;> omega

/-- An index below `n` is in an earlier row than `n`, or in the same row and an
earlier column. -/
theorem index_before (c n j : Nat) (hj : j < n) :
    j / c < n / c ∨ (j / c = n / c ∧ j % c < n % c) := by
  have h1 : j / c ≤ n / c := Nat.div_le_div_right (Nat.le_of_lt hj)
  rcases Nat.lt_or_eq_of_le h1 with h2 | h2
  · exact Or.inl h2
  · right
    refine ⟨h2, ?_⟩
    have e1 := Nat.mod_add_div j c
    have e2 := Nat.mod_add_div n c
    rw [h2] at e1
    omega

/-- The destination rectangle, with the local variables of lines 90-91 inlined. -/
theorem destRect_def (columns imgWidth imgHeight : Int) (i : Nat) :
    destRect columns imgWidth imgHeight i =
      imageRect (mulInt (modInt i columns) imgWidth) (mulInt (divInt i columns) imgHeight)
        (addInt (mulInt (modInt i columns) imgWidth) imgWidth)
        (addInt (mulInt (divInt i columns) imgHeight) imgHeight) := rfl

/-- A pixel of a last-row cell of column at least `n % c` is in the destination
rectangle of no image of index below `n`, with or without overflow. -/
theorem unassigned_not_in_dest (c w h n j k : Nat) (hj : j < n) (hk : n % c ≤ k)
    (dx dy : Nat) (hdx : dx < w) (hdy : dy < h)
    (hpx : (k : Int) * w + dx < two63) (hpy : ((n / c : Nat) : Int) * h + dy < two63) :
    (destRect c w h j).contains ((k : Int) * w + dx) (((n / c : Nat) : Int) * h + dy) =
      false := by
  have hw0 : (0 : Int) ≤ (w : Int) := Int.ofNat_nonneg w
  have hh0 : (0 : Int) ≤ (h : Int) := Int.ofNat_nonneg h
  have hdx0 : (0 : Int) ≤ (dx : Int) := Int.ofNat_nonneg _
  have hdy0 : (0 : Int) ≤ (dy : Int) := Int.ofNat_nonneg _
  have hh1 : (1 : Int) ≤ (h : Int) := by omega
  rw [destRect_def]
  rcases index_before c n j hj with hrow | ⟨-, hcol⟩
  · have hr : ((j / c : Nat) : Int) + 1 ≤ ((n / c : Nat) : Int) := by omega
    have hmul := mul_le_mul_of_nonneg_right hr hh0
    have hy0 : (0 : Int) ≤ ((j / c : Nat) : Int) * h := by positivity
    have hq0 : (0 : Int) ≤ ((j / c : Nat) : Int) := Int.ofNat_nonneg _
    have hqle : ((j / c : Nat) : Int) ≤ ((j / c : Nat) : Int) * h := by nlinarith
    have hend : ((j / c : Nat) : Int) * h + h ≤ ((n / c : Nat) : Int) * h := by nlinarith
    have hlt : ((n / c : Nat) : Int) * h < two63 := by omega
    have b1 : ((j / c : Nat) : Int) ≤ ((n / c : Nat) : Int) * h := by omega
    have b2 : ((j / c : Nat) : Int) * h ≤ ((n / c : Nat) : Int) * h := by omega
    have b3 : (0 : Int) ≤ ((j / c : Nat) : Int) * h + h := by omega
    have b4 : ((j / c : Nat) : Int) * h ≤ ((j / c : Nat) : Int) * h + h := by omega
    have hge : ((j / c : Nat) : Int) * h + h ≤ ((n / c : Nat) : Int) * h + dy := by omega
    have e0 := wrapInt_of_bounds hq0 b1 hlt
    have e1 := wrapInt_of_bounds hy0 b2 hlt
    have e2 := wrapInt_of_bounds b3 hend hlt
    have hy : mulInt (divInt (j : Int) (c : Int)) (h : Int) = ((j / c : Nat) : Int) * h := by
      unfold mulInt divInt
      rw [← Int.ofNat_tdiv, e0, e1]
    have hy2 : addInt (((j / c : Nat) : Int) * h) (h : Int) = ((j / c : Nat) : Int) * h + h := e2
    rw [hy, hy2]
    exact imageRect_not_contains_y b4 hge
  · have hr : ((j % c : Nat) : Int) + 1 ≤ (k : Int) := by omega
    have hmul := mul_le_mul_of_nonneg_right hr hw0
    have hx0 : (0 : Int) ≤ ((j % c : Nat) : Int) * w := by positivity
    have hend : ((j % c : Nat) : Int) * w + w ≤ (k : Int) * w := by nlinarith
    have hlt : (k : Int) * w < two63 := by omega
    have b2 : ((j % c : Nat) : Int) * w ≤ (k : Int) * w := by omega
    have b3 : (0 : Int) ≤ ((j % c : Nat) : Int) * w + w := by omega
    have b4 : ((j % c : Nat) : Int) * w ≤ ((j % c : Nat) : Int) * w + w := by omega
    have hge : ((j % c : Nat) : Int) * w + w ≤ (k : Int) * w + dx := by omega
    have e1 := wrapInt_of_bounds hx0 b2 hlt
    have e2 := wrapInt_of_bounds b3 hend hlt
    have hx : mulInt (modInt (j : Int) (c : Int)) (w : Int) = ((j % c : Nat) : Int) * w := by
      unfold mulInt modInt
      rw [← Int.ofNat_tmod, e1]
    have hx2 : addInt (((j % c : Nat) : Int) * w) (w : Int) = ((j % c : Nat) : Int) * w + w := e2
    rw [hx, hx2]
    exact imageRect_not_contains_x b4 hge

/-- The canvas rectangle, with the local variables of lines 84-86 inlined. -/
theorem canvasRect_def (columns : Int) (n : Nat) (imgWidth imgHeight : Int) :
    canvasRect columns n imgWidth imgHeight =
      imageRect 0 0 (wrapInt (columns * imgWidth)) (wrapInt (rowsOf columns n * imgHeight)) :=
  rfl

/-- What `composite` returns when it does not panic. -/
theorem composite_ok {makeOk : Int → Bool} {columns : Int} {images : List Image}
    {imgWidth imgHeight : Int}
    {dst : RGBA} (h : composite makeOk columns images imgWidth imgHeight = .ok dst) :
    dst = drawLoop columns imgWidth imgHeight images 0
      ⟨canvasRect columns images.length imgWidth imgHeight, fun _ _ => Color.zero⟩ := by
  unfold composite at h
  split_ifs at h
  unfold newRGBA at h
  split_ifs at h
  · simp only [Except.ok.injEq] at h
    exact h.symm

/-- Whenever the canvas is composited, the pixels of the last-row cells that no
image is assigned to are zero. -/
theorem unassigned_zero {makeOk : Int → Bool} (c w h : Nat) (images : List Image) (dst : RGBA)
    (hcomp : composite makeOk c images w h = .ok dst) (k : Nat) (hk : images.length % c ≤ k)
    (dx dy : Nat) (hdx : dx < w) (hdy : dy < h) :
    dst.pix ((k : Int) * w + dx) (((images.length / c : Nat) : Int) * h + dy) =
      Color.zero := by
  rw [composite_ok hcomp]
  by_cases hin : (canvasRect c images.length w h).contains
      ((k : Int) * w + dx) (((images.length / c : Nat) : Int) * h + dy) = true
  · have h0 : (0 : Int) < two63 := by decide
    rw [canvasRect_def] at hin
    obtain ⟨hx, hy⟩ := imageRect_contains_lt h0 (wrapInt_upper _) h0 (wrapInt_upper _) hin
    rw [drawLoop_pix_frame]
    intro j hj
    rw [Nat.zero_add]
    exact unassigned_not_in_dest c w h images.length j k hj hk dx dy hdx hdy hx hy
  · rw [drawLoop_pix_outside]
    simpa using hin

/-! ## After the loading loop -/

theorem finishMerge_noImages {makeOk : Int → Bool} (env : Env) (columns : Int) (outputFile : String)
    (st : LoadState) (h : st.images = []) :
    finishMerge makeOk env columns outputFile st = ⟨st.trace, Outcome.noImages⟩ := by
  unfold finishMerge
  simp [h]

/-- The result of lines 80-111 when at least one image is loaded. -/
theorem finishMerge_nonempty {makeOk : Int → Bool} (env : Env) (columns : Int) (outputFile : String)
    (st : LoadState) (h : st.images ≠ []) :
    finishMerge makeOk env columns outputFile st =
      match composite makeOk columns st.images st.imgWidth st.imgHeight with
      | .error p => ⟨st.trace, Outcome.panicked p⟩
      | .ok dst =>
        if !env.createOk then
          ⟨st.trace ++ [Event.allocCanvas dst.rect, Event.createFile outputFile],
            Outcome.createFailed⟩
        else if !env.encodeOk then
          ⟨st.trace ++ [Event.allocCanvas dst.rect, Event.createFile outputFile] ++
            [Event.encode (chooseCodec outputFile)], Outcome.saveFailed⟩
        else
          ⟨st.trace ++ [Event.allocCanvas dst.rect, Event.createFile outputFile] ++
            [Event.encode (chooseCodec outputFile)] ++ [Event.printSaved outputFile],
            Outcome.saved dst (chooseCodec outputFile)⟩ := by
  have hlen : ¬ (st.images.length = 0) := by simpa [List.length_eq_zero] using h
  unfold finishMerge
  rw [if_neg hlen]

/-- The outcome of lines 80-111 does not depend on the trace, only on the
images, the canonical size and the answers of the file system. -/
theorem finishMerge_outcome_congr {makeOk : Int → Bool} (env env1 : Env) (columns : Int)
    (outputFile : String)
    (st st1 : LoadState) (hi : st1.images = st.images) (hw : st1.imgWidth = st.imgWidth)
    (hh : st1.imgHeight = st.imgHeight) (hc : env1.createOk = env.createOk)
    (he : env1.encodeOk = env.encodeOk) :
    (finishMerge makeOk env1 columns outputFile st1).outcome =
      (finishMerge makeOk env columns outputFile st).outcome := by
  by_cases hnil : st.images = []
  · rw [finishMerge_noImages env columns outputFile st hnil,
      finishMerge_noImages env1 columns outputFile st1 (by rw [hi, hnil])]
  · rw [finishMerge_nonempty env columns outputFile st hnil,
      finishMerge_nonempty env1 columns outputFile st1 (by rw [hi]; exact hnil),
      hi, hw, hh, hc, he]
    cases composite makeOk columns st.images st.imgWidth st.imgHeight with
    | error p => rfl
    | ok dst =>
      simp only
      split_ifs <;> rfl

/-- Events that lines 80-111 add to the trace. -/
theorem finishMerge_trace {makeOk : Int → Bool} (env : Env) (columns : Int) (outputFile : String)
    (st : LoadState) :
    ∀ ev ∈ (finishMerge makeOk env columns outputFile st).trace,
      ev ∈ st.trace ∨ (∃ r, ev = Event.allocCanvas r) ∨ ev = Event.createFile outputFile ∨
      ev = Event.encode (chooseCodec outputFile) ∨ ev = Event.printSaved outputFile := by
  intro ev hev
  by_cases hnil : st.images = []
  · rw [finishMerge_noImages env columns outputFile st hnil] at hev
    exact Or.inl hev
  · rw [finishMerge_nonempty env columns outputFile st hnil] at hev
    cases hcomp : composite makeOk columns st.images st.imgWidth st.imgHeight with
    | error p =>
      rw [hcomp] at hev
      exact Or.inl hev
    | ok dst =>
      rw [hcomp] at hev
      simp only at hev
      split_ifs at hev <;>
      · simp only [List.mem_append, List.mem_cons, List.mem_singleton, List.not_mem_nil,
          or_false] at hev
        aesop

/-- Lines 80-111 never end in the fatal errors of the loading phase, and end in
"No images loaded" exactly when no image is loaded. -/
theorem finishMerge_outcome {makeOk : Int → Bool} (env : Env) (columns : Int) (outputFile : String)
    (st : LoadState) :
    ((finishMerge makeOk env columns outputFile st).outcome = Outcome.noImages ↔ st.images = []) ∧
    (∀ name, (finishMerge makeOk env columns outputFile st).outcome ≠ Outcome.sizeMismatch name) ∧
    (finishMerge makeOk env columns outputFile st).outcome ≠ Outcome.readDirFailed := by
  by_cases hnil : st.images = []
  · rw [finishMerge_noImages env columns outputFile st hnil]
    simp [hnil]
  · rw [finishMerge_nonempty env columns outputFile st hnil]
    cases composite makeOk columns st.images st.imgWidth st.imgHeight with
    | error p => simp [hnil]
    | ok dst =>
      simp only
      split_ifs <;> simp [hnil]

/-- When the run ends with the canvas saved, the canvas is the composited one,
the codec is the chosen one and it was used. -/
theorem finishMerge_saved {makeOk : Int → Bool} (env : Env) (columns : Int) (outputFile : String)
    (st : LoadState) (dst : RGBA) (codec : Codec)
    (h : (finishMerge makeOk env columns outputFile st).outcome = Outcome.saved dst codec) :
    composite makeOk columns st.images st.imgWidth st.imgHeight = .ok dst ∧
    codec = chooseCodec outputFile ∧
    Event.encode codec ∈ (finishMerge makeOk env columns outputFile st).trace := by
  by_cases hnil : st.images = []
  · rw [finishMerge_noImages env columns outputFile st hnil] at h
    simp at h
  · rw [finishMerge_nonempty env columns outputFile st hnil] at h ⊢
    cases hcomp : composite makeOk columns st.images st.imgWidth st.imgHeight with
    | error p =>
      rw [hcomp] at h
      simp at h
    | ok dst1 =>
      rw [hcomp] at h
      simp only at h ⊢
      split_ifs at h ⊢
      simp only [Outcome.saved.injEq, reduceCtorEq] at h
      obtain ⟨h1, h2⟩ := h
      subst h1 h2
      simp

/-- The canvas that is allocated is recorded in the trace. -/
theorem finishMerge_alloc {makeOk : Int → Bool} (env : Env) (columns : Int) (outputFile : String)
    (st : LoadState) (dst : RGBA) (hnil : st.images ≠ [])
    (hcomp : composite makeOk columns st.images st.imgWidth st.imgHeight = .ok dst) :
    Event.allocCanvas dst.rect ∈ (finishMerge makeOk env columns outputFile st).trace := by
  rw [finishMerge_nonempty env columns outputFile st hnil, hcomp]
  simp only
  split_ifs <;> simp

/-! ## The whole of `mergeImages` -/

theorem mergeImages_of_error (makeOk : Int → Bool) (env : Env) (folder : String) (columns : Int)
    (outputFile : String) (files : List DirEntry) (tr : List Event) (name : String)
    (hread : env.readDir = some files)
    (hload : loadLoop folder files (initState folder) = .error (tr, name)) :
    mergeImages makeOk env folder columns outputFile = ⟨tr, Outcome.sizeMismatch name⟩ := by
  unfold mergeImages
  rw [hread]
  simp only
  rw [hload]

theorem mergeImages_of_ok (makeOk : Int → Bool) (env : Env) (folder : String) (columns : Int)
    (outputFile : String) (files : List DirEntry) (st : LoadState)
    (hread : env.readDir = some files)
    (hload : loadLoop folder files (initState folder) = .ok st) :
    mergeImages makeOk env folder columns outputFile = finishMerge makeOk env columns outputFile st := by
  unfold mergeImages
  rw [hread]
  simp only
  rw [hload]

/-- The trace of the loading loop of `mergeImages` holds loading events only. -/
theorem load_trace_init (folder : String) (files : List DirEntry) :
    ∀ ev ∈ loadTrace (loadLoop folder files (initState folder)), ev.isLoad = true := by
  apply loadLoop_trace
  intro ev hev
  simp only [initState, List.mem_singleton] at hev
  rw [hev]
  rfl

theorem candidateImage_eq_none_iff (e : DirEntry) :
    candidateImage e = none ↔ e.skipped = true := by
  unfold candidateImage DirEntry.skipped
  cases e.isDir <;> cases supportedExt e.name <;> cases e.file <;> simp

/-- The two ways the loading loop of `mergeImages` ends: fatally at the first
mismatching entry, or with every successfully decoded candidate loaded, in
order, all of the canonical size. -/
theorem load_cases (folder : String) (files : List DirEntry) :
    (∃ e tr, firstMismatch files = some e ∧
      loadLoop folder files (initState folder) = .error (tr, e.name)) ∨
    (∃ st, firstMismatch files = none ∧
      loadLoop folder files (initState folder) = .ok st ∧
      st.images = files.filterMap candidateImage ∧
      ∀ img ∈ st.images, (img.width : Int) = st.imgWidth ∧ (img.height : Int) = st.imgHeight) := by
  have hmain := loadLoop_empty folder files (initState folder) rfl
  cases hfi : firstImage files with
  | none =>
    right
    obtain ⟨tr, htr⟩ := hmain.1 hfi
    refine ⟨_, ?_, htr, ?_, ?_⟩
    · simp [firstMismatch, hfi]
    · simp only [firstImage, List.head?_eq_none_iff] at hfi
      simp [hfi]
    · intro img himg
      simp at himg
  | some img0 =>
    obtain ⟨herr, hok⟩ := hmain.2 img0 hfi
    cases hfind : files.find? (mismatches img0.width img0.height) with
    | some e =>
      left
      obtain ⟨tr, htr⟩ := herr e hfind
      exact ⟨e, tr, by simp [firstMismatch, hfi, hfind], htr⟩
    | none =>
      right
      obtain ⟨tr, htr⟩ := hok hfind
      refine ⟨_, by simp [firstMismatch, hfi, hfind], htr, rfl, ?_⟩
      intro img himg
      simp only [List.mem_filterMap] at himg
      obtain ⟨e, he, hc⟩ := himg
      have hm := List.find?_eq_none.mp hfind e he
      rw [mismatches_of_some hc] at hm
      simpa [not_or] using hm

/-- From states that agree on the images and the canonical size, one iteration
on the same entry gives results that agree. -/
theorem loadStep_sameLoad (folder : String) (st st1 : LoadState) (e : DirEntry)
    (hi : st1.images = st.images) (hw : st1.imgWidth = st.imgWidth)
    (hh : st1.imgHeight = st.imgHeight) :
    SameLoad (loadStep folder st e) (loadStep folder st1 e) := by
  cases hc : candidateImage e with
  | none =>
    obtain ⟨tr, htr, -⟩ := loadStep_skip folder st e hc
    obtain ⟨tr1, htr1, -⟩ := loadStep_skip folder st1 e hc
    rw [htr, htr1]
    exact ⟨hi.symm, hw.symm, hh.symm⟩
  | some img =>
    rw [loadStep_decoded folder st e img hc, loadStep_decoded folder st1 e img hc,
      hi, hw, hh]
    split_ifs <;> simp [SameLoad]

/-- The loading loop on a listing with skipped entries inserted ends like the
loop on the listing itself, up to the trace. -/
theorem loadLoop_insertSkipped (folder : String) {l l1 : List DirEntry}
    (h : InsertSkipped l l1) :
    ∀ st st1 : LoadState, st1.images = st.images → st1.imgWidth = st.imgWidth →
      st1.imgHeight = st.imgHeight →
      SameLoad (loadLoop folder l st) (loadLoop folder l1 st1) := by
  induction h with
  | nil =>
    intro st st1 hi hw hh
    exact ⟨hi.symm, hw.symm, hh.symm⟩
  | keep e _ ih =>
    intro st st1 hi hw hh
    have hstep := loadStep_sameLoad folder st st1 e hi hw hh
    unfold loadLoop
    cases h1 : loadStep folder st e with
    | error err =>
      cases h2 : loadStep folder st1 e with
      | error err1 =>
        rw [h1, h2] at hstep
        exact hstep
      | ok s1 =>
        rw [h1, h2] at hstep
        exact absurd hstep (by simp [SameLoad])
    | ok s =>
      cases h2 : loadStep folder st1 e with
      | error err1 =>
        rw [h1, h2] at hstep
        exact absurd hstep (by simp [SameLoad])
      | ok s1 =>
        rw [h1, h2] at hstep
        exact ih s s1 hstep.1.symm hstep.2.1.symm hstep.2.2.symm
  | @skip e l2 l3 hskip _ ih =>
    intro st st1 hi hw hh
    obtain ⟨tr, htr, -⟩ := loadStep_skip folder st1 e
      ((candidateImage_eq_none_iff e).mpr hskip)
    have hloop : loadLoop folder (e :: l3) st1 =
        loadLoop folder l3 { st1 with trace := tr } := by
      rw [loadLoop, htr]
    rw [hloop]
    exact ih st _ hi hw hh

/-! ## Claims about the grid -/

/-- When every loaded image has the same size, the first one sets the
canonical size and nothing mismatches. -/
theorem load_uniform (folder : String) (files : List DirEntry) (w h : Nat)
    (hn : 1 ≤ (files.filterMap candidateImage).length)
    (hsize : ∀ img ∈ files.filterMap candidateImage, img.width = w ∧ img.height = h) :
    ∃ tr, loadLoop folder files (initState folder) =
      .ok ⟨files.filterMap candidateImage, w, h, tr⟩ := by
  have hmain := loadLoop_empty folder files (initState folder) rfl
  cases hfi : firstImage files with
  | none =>
    simp only [firstImage, List.head?_eq_none_iff] at hfi
    rw [hfi] at hn
    simp at hn
  | some img0 =>
    have hmem : img0 ∈ files.filterMap candidateImage := List.mem_of_mem_head? hfi
    obtain ⟨hw0, hh0⟩ := hsize img0 hmem
    have hfind : files.find? (mismatches img0.width img0.height) = none := by
      rw [List.find?_eq_none]
      intro e he
      cases hc : candidateImage e with
      | none => simp [mismatches_of_none hc]
      | some img =>
        obtain ⟨h1, h2⟩ := hsize img (List.mem_filterMap.mpr ⟨e, he, hc⟩)
        rw [mismatches_of_some hc, h1, h2, hw0, hh0]
        simp
    obtain ⟨tr, htr⟩ := (hmain.2 img0 hfi).2 hfind
    rw [hw0, hh0] at htr
    exact ⟨tr, htr⟩

/-- An allocation event of the trace of lines 80-111 comes from the loading
trace or is the canvas that compositing returns. -/
theorem finishMerge_alloc_inv {makeOk : Int → Bool} (env : Env) (columns : Int)
    (outputFile : String) (st : LoadState) (r : Rectangle)
    (h : Event.allocCanvas r ∈ (finishMerge makeOk env columns outputFile st).trace) :
    Event.allocCanvas r ∈ st.trace ∨
      ∃ dst, composite makeOk columns st.images st.imgWidth st.imgHeight = .ok dst ∧
        r = dst.rect := by
  by_cases hnil : st.images = []
  · rw [finishMerge_noImages env columns outputFile st hnil] at h
    exact Or.inl h
  · rw [finishMerge_nonempty env columns outputFile st hnil] at h
    cases hcomp : composite makeOk columns st.images st.imgWidth st.imgHeight with
    | error p =>
      rw [hcomp] at h
      exact Or.inl h
    | ok dst =>
      rw [hcomp] at h
      simp only at h
      split_ifs at h <;>
      · simp only [List.mem_append, List.mem_cons, List.mem_singleton, List.not_mem_nil,
          or_false, Event.allocCanvas.injEq, reduceCtorEq] at h
        rcases h with h | h
        · exact Or.inl h
        · exact Or.inr ⟨dst, rfl, h⟩

/-- C1 (amended): for every column count `c ≥ 1` and every non-empty sequence of
`N` loaded images of width `w` and height `h` such that `N + c - 1`, `c * w` and
`ceil(N/c) * h` stay in the range of `int` (`NoWrap`), line 84 computes
`rows = ceil(N/c)`, and every canvas that `mergeImages` allocates is at the
origin with width exactly `c * w` and height exactly `ceil(N/c) * h`.  The
canvas is allocated when its byte size `4 * (c * w) * (ceil(N/c) * h)` passes the
size check of `image.NewRGBA` (`SizeOk`) and the allocation of that many bytes
succeeds; otherwise `image.NewRGBA` does not return and nothing is allocated. -/
theorem C1_canvas_dimensions (makeOk : Int → Bool) (env : Env) (folder outputFile : String)
    (files : List DirEntry) (c w h : Nat) (hread : env.readDir = some files) (hc : 1 ≤ c)
    (hn : 1 ≤ (files.filterMap candidateImage).length)
    (hsize : ∀ img ∈ files.filterMap candidateImage, img.width = w ∧ img.height = h)
    (hf : NoWrap c (files.filterMap candidateImage).length w h) :
    rowsOf c (files.filterMap candidateImage).length =
      ceilDiv (files.filterMap candidateImage).length c ∧
    (∀ r, Event.allocCanvas r ∈ (mergeImages makeOk env folder c outputFile).trace →
      r = ⟨0, 0, (c : Int) * w, ceilDiv (files.filterMap candidateImage).length c * h⟩ ∧
      r.dx = (c : Int) * w ∧
      r.dy = ceilDiv (files.filterMap candidateImage).length c * h) ∧
    (∀ dst, composite makeOk c (files.filterMap candidateImage) w h = .ok dst →
      dst.rect = ⟨0, 0, (c : Int) * w, ceilDiv (files.filterMap candidateImage).length c * h⟩) ∧
    (SizeOk c (files.filterMap candidateImage).length w h →
      makeOk (4 * ((c : Int) * w) *
        (ceilDiv (files.filterMap candidateImage).length c * h)) = true →
      ∃ dst, composite makeOk c (files.filterMap candidateImage) w h = .ok dst ∧
        Event.allocCanvas dst.rect ∈ (mergeImages makeOk env folder c outputFile).trace) ∧
    ((¬ SizeOk c (files.filterMap candidateImage).length w h ∨
      makeOk (4 * ((c : Int) * w) *
        (ceilDiv (files.filterMap candidateImage).length c * h)) = false) →
      composite makeOk c (files.filterMap candidateImage) w h = .error Panic.newRGBA ∧
      ∀ r, Event.allocCanvas r ∉ (mergeImages makeOk env folder c outputFile).trace) := by
  have hrows := rowsOf_eq_ceilDiv c (files.filterMap candidateImage).length hc hf.1
  obtain ⟨tr, htr⟩ := load_uniform folder files w h hn hsize
  have hne : files.filterMap candidateImage ≠ [] := by
    intro hnil
    rw [hnil] at hn
    simp at hn
  have hm := mergeImages_of_ok makeOk env folder c outputFile files _ hread htr
  have htrace := load_trace_init folder files
  rw [htr] at htrace
  have hcan := canvasRect_of_noWrap c (files.filterMap candidateImage).length w h hc hf
  obtain ⟨hdx, hdy⟩ := canvas_dx_dy c (files.filterMap candidateImage).length w h hf
  have hrect : ∀ dst, composite makeOk c (files.filterMap candidateImage) w h = .ok dst →
      dst.rect =
        ⟨0, 0, (c : Int) * w, ceilDiv (files.filterMap candidateImage).length c * h⟩ := by
    intro dst hdst
    rw [composite_ok hdst, drawLoop_rect, hcan]
  have hload : ∀ r, Event.allocCanvas r ∉ tr := by
    intro r hr
    have := htrace _ hr
    simp [Event.isLoad] at this
  refine ⟨hrows, ?_, hrect, ?_, ?_⟩
  · intro r hr
    rw [hm] at hr
    rcases finishMerge_alloc_inv env c outputFile _ r hr with h1 | ⟨dst, hdst, hrd⟩
    · exact absurd h1 (hload r)
    · have := hrect dst hdst
      rw [hrd, this]
      exact ⟨rfl, hdx, hdy⟩
  · intro hs hmake
    have hcomp := composite_of_ok makeOk c w h (files.filterMap candidateImage) hc hf hs hmake
    refine ⟨_, hcomp, ?_⟩
    rw [hm]
    exact finishMerge_alloc env c outputFile
      ⟨files.filterMap candidateImage, w, h, tr⟩ _ hne hcomp
  · intro hbad
    have hcomp := composite_of_not_ok makeOk c w h (files.filterMap candidateImage) hc hf hbad
    refine ⟨hcomp, ?_⟩
    intro r hr
    rw [hm] at hr
    rcases finishMerge_alloc_inv env c outputFile _ r hr with h1 | ⟨dst, hdst, -⟩
    · exact absurd h1 (hload r)
    · rw [hcomp] at hdst
      simp at hdst

theorem fits_scenario : Fits 2 3 2 2 := by
  unfold Fits
  rw [ceilDiv_eq_nat 3 2 (by decide)]
  decide

/-- Witness of C1: the scenario folder with two columns, where the 64 bytes of
the canvas are allocated; and 2^47 columns with one 2x1 image, where nothing
wraps but the 2^50 bytes are refused and no canvas is allocated. -/
theorem C1_canvas_dimensions_witness :
    NoWrap 2 (scenarioFiles.filterMap candidateImage).length 2 2 ∧
    rowsOf (2 : Nat) (scenarioFiles.filterMap candidateImage).length =
      ceilDiv (scenarioFiles.filterMap candidateImage).length 2 ∧
    (∃ dst, composite limitedMemory (2 : Nat) (scenarioFiles.filterMap candidateImage)
        (2 : Nat) (2 : Nat) = .ok dst ∧
      Event.allocCanvas dst.rect ∈
        (mergeImages limitedMemory scenarioEnv "in" (2 : Nat) "out.png").trace) ∧
    Event.allocCanvas ⟨0, 0, 4, 4⟩ ∈
      (mergeImages limitedMemory scenarioEnv "in" 2 "out.png").trace ∧
    (mergeImages limitedMemory wideEnv "in" 140737488355328 "out.png").trace =
      [Event.readDir "in", Event.openFile "in" "a.png"] ∧
    (mergeImages limitedMemory wideEnv "in" 140737488355328 "out.png").outcome.panic =
      some Panic.newRGBA :=
  ⟨fits_scenario.noWrap,
    (C1_canvas_dimensions limitedMemory scenarioEnv "in" "out.png" scenarioFiles 2 2 2 rfl
      (by decide) (by decide) (by decide) fits_scenario.noWrap).1,
    (C1_canvas_dimensions limitedMemory scenarioEnv "in" "out.png" scenarioFiles 2 2 2 rfl
      (by decide) (by decide) (by decide) fits_scenario.noWrap).2.2.2.1
      fits_scenario.sizeOk (by rw [ceilDiv_eq_nat _ _ (by decide)]; decide),
    by decide, by decide, by decide⟩

/-- C1 fails as stated: with `columns = 2^63 - 1` (accepted by `Run`) and two
loaded images of width 2 and height 1, line 84 computes `rows = -1` although the
ceiling of `2 / columns` is 1, and `mergeImages` allocates the 8 bytes of the
canvas `(-2,-1)-(0,0)`, of width 2, not `columns * 2`. -/
theorem C1_counterexample :
    1 ≤ hugeColumns ∧
    (∀ img ∈ stripFiles.filterMap candidateImage, img.width = 2 ∧ img.height = 1) ∧
    (stripFiles.filterMap candidateImage).length = 2 ∧
    rowsOf hugeColumns 2 = -1 ∧ ceilDiv 2 hugeColumns.toNat = 1 ∧
    Event.allocCanvas ⟨-2, -1, 0, 0⟩ ∈
      (mergeImages limitedMemory stripEnv "in" hugeColumns "out.png").trace ∧
    (mergeImages limitedMemory stripEnv "in" hugeColumns "out.png").outcome.bounds =
      some ⟨-2, -1, 0, 0⟩ ∧
    (⟨-2, -1, 0, 0⟩ : Rectangle).dx = 2 ∧ hugeColumns * 2 ≠ 2 := by
  refine ⟨by decide, by decide, by decide, by decide, ?_, by decide, by decide, by decide,
    by decide⟩
  rw [← ediv_eq_ceilDiv _ _ (by decide)]
  decide

/-- C2 (amended): for every `c ≥ 1`, every sequence of `N ≥ 1` loaded images of
width `w` and height `h` whose sizes stay in the range of `int` (`Fits`), and
every index `i < N`, after the compositing loop the pixel at
`((i mod c) * w + dx, (i div c) * h + dy)` of every canvas that is composited is
the pixel `(dx, dy)` of the `i`-th image converted to `color.RGBA`, for all
`dx < w` and `dy < h`; it is that pixel itself when the image holds a
`color.RGBA` there.  The canvas is composited when the allocation of its bytes
succeeds.  The copy is an overwrite: the same holds when the loop starts from
a canvas with any content, and no later image changes the cell. -/
theorem C2_cell_pixels (makeOk : Int → Bool) (c w h : Nat) (images : List Image)
    (hc : 1 ≤ c) (hsize : ∀ img ∈ images, img.width = w ∧ img.height = h)
    (hf : Fits c images.length w h) (i : Nat) (hi : i < images.length)
    (dx dy : Nat) (hdx : dx < w) (hdy : dy < h) :
    (∀ dst, composite makeOk c images w h = .ok dst →
      dst.pix (((i % c : Nat) : Int) * w + dx) (((i / c : Nat) : Int) * h + dy) =
        ((images.get ⟨i, hi⟩).colorAt dx dy).toRGBA) ∧
    (∀ dst col, composite makeOk c images w h = .ok dst →
      (images.get ⟨i, hi⟩).colorAt dx dy = GoColor.rgba col →
      dst.pix (((i % c : Nat) : Int) * w + dx) (((i / c : Nat) : Int) * h + dy) = col) ∧
    (makeOk (4 * ((c : Int) * w) * (ceilDiv images.length c * h)) = true →
      ∃ dst, composite makeOk c images w h = .ok dst) ∧
    (∀ dst0 : RGBA,
      dst0.rect = ⟨0, 0, (c : Int) * w, ceilDiv images.length c * h⟩ →
      (drawLoop c w h images 0 dst0).pix
          (((i % c : Nat) : Int) * w + dx) (((i / c : Nat) : Int) * h + dy) =
        ((images.get ⟨i, hi⟩).colorAt dx dy).toRGBA) := by
  have hpix : ∀ dst, composite makeOk c images w h = .ok dst →
      dst.pix (((i % c : Nat) : Int) * w + dx) (((i / c : Nat) : Int) * h + dy) =
        ((images.get ⟨i, hi⟩).colorAt dx dy).toRGBA := by
    intro dst hdst
    rw [composite_ok hdst, canvasRect_of_fits c images.length w h hc hf]
    exact drawLoop_cell c w h images hc hsize hf i hi dx dy hdx hdy _ rfl
  refine ⟨hpix, ?_, ?_, ?_⟩
  · intro dst col hdst hcol
    rw [hpix dst hdst, hcol, toRGBA_rgba]
  · intro hmake
    exact ⟨_, composite_of_ok makeOk c w h images hc hf.noWrap hf.sizeOk hmake⟩
  · intro dst0 hdst
    exact drawLoop_cell c w h images hc hsize hf i hi dx dy hdx hdy dst0 hdst

/-- Witness of C2: the blue image of the scenario (index 1), pixel (1, 0). -/
theorem C2_cell_pixels_witness :
    (∃ dst, composite limitedMemory (2 : Nat) scenarioImages (2 : Nat) (2 : Nat) = .ok dst) ∧
    (∀ dst, composite limitedMemory (2 : Nat) scenarioImages (2 : Nat) (2 : Nat) = .ok dst →
      dst.pix (((1 % 2 : Nat) : Int) * (2 : Nat) + (1 : Nat))
          (((1 / 2 : Nat) : Int) * (2 : Nat) + (0 : Nat)) = blue) ∧
    compositePixel (composite limitedMemory 2 scenarioImages 2 2) 3 0 = some blue :=
  ⟨(C2_cell_pixels limitedMemory 2 2 2 scenarioImages (by decide) (by decide) fits_scenario 1
      (by decide) 1 0 (by decide) (by decide)).2.2.1
      (by rw [ceilDiv_eq_nat _ _ (by decide)]; decide),
    fun dst hdst =>
      (C2_cell_pixels limitedMemory 2 2 2 scenarioImages (by decide) (by decide) fits_scenario
        1 (by decide) 1 0 (by decide) (by decide)).2.1 dst blue hdst rfl,
    by decide⟩

theorem fits_single : Fits 1 1 1 1 := by
  unfold Fits
  rw [ceilDiv_eq_nat 1 1 (by decide)]
  decide

/-- C2 fails as stated, in two ways.  With `columns = 2^63 - 1` and two red
images of width 2 and height 1, the canvas is `(-2,-1)-(0,0)`, both draws are
clipped away, and the pixel `(0, 0)` claimed for image 0 is zero, not red.  And
without any overflow, a 1x1 image whose pixel is `color.NRGBA{200, 100, 50, 3}`
is stored as `color.RGBA{2, 1, 0, 3}`, which is another colour: its 16-bit
channels are `(514, 257, 0, 771)`, those of the source `(604, 302, 151, 771)`. -/
theorem C2_counterexample :
    (1 ≤ hugeColumns ∧ (∀ img ∈ stripImages, img.width = 2 ∧ img.height = 1) ∧
      compositeBounds (composite limitedMemory hugeColumns stripImages 2 1) =
        some ⟨-2, -1, 0, 0⟩ ∧
      compositePixel (composite limitedMemory hugeColumns stripImages 2 1)
        (Int.tmod 0 hugeColumns * 2 + 0) (Int.tdiv 0 hugeColumns * 1 + 0) =
          some Color.zero ∧
      (stripImages.get ⟨0, by decide⟩).colorAt 0 0 = GoColor.rgba red ∧
      red ≠ Color.zero) ∧
    (Fits 1 1 1 1 ∧
      compositePixel (composite limitedMemory 1 [translucentImage] 1 1) 0 0 =
        some ⟨2, 1, 0, 3⟩ ∧
      translucentImage.colorAt 0 0 = GoColor.nrgba 200 100 50 3 ∧
      GoColor.rgba ⟨2, 1, 0, 3⟩ ≠ GoColor.nrgba 200 100 50 3 ∧
      (GoColor.rgba ⟨2, 1, 0, 3⟩).rgba64 = (514, 257, 0, 771) ∧
      (GoColor.nrgba 200 100 50 3).rgba64 = (604, 302, 151, 771)) :=
  ⟨by decide, fits_single, by decide, by decide, by decide, by decide, by decide⟩

/-- C3: for every `c ≥ 1` and every sequence of `N` images with `N` not a
multiple of `c`, whenever the canvas is composited every pixel of a last-row
cell of column index `k` with `N mod c ≤ k < c` (a cell that no image is
assigned to) is zero, the value of the freshly allocated canvas.  This holds
with or without overflow of the `int` computations, and the hypotheses
`c ≥ 1`, `N mod c ≠ 0` and `k < c` of the claim are not even needed: a
composited canvas implies `c ≠ 0`, and the pixels named for larger `k` or for
`N mod c = 0` are zero as well. -/
theorem C3_unfilled_cells_zero (makeOk : Int → Bool) (c w h : Nat) (images : List Image)
    (dst : RGBA)
    (hcomp : composite makeOk c images w h = .ok dst) (k : Nat)
    (hk1 : images.length % c ≤ k) (dx dy : Nat) (hdx : dx < w) (hdy : dy < h) :
    dst.pix ((k : Int) * w + dx) (((images.length / c : Nat) : Int) * h + dy) =
      Color.zero :=
  unassigned_zero c w h images dst hcomp k hk1 dx dy hdx hdy

/-- Witness of C3, the scenario of the specification: three 2x2 images (red,
blue, green) with two columns give a 4x4 canvas with red at (0,0)-(1,1), blue
at (2,0)-(3,1), green at (0,2)-(1,3) and the bottom-right cell zero. -/
theorem C3_unfilled_cells_zero_witness :
    composite plentyOfMemory (2 : Nat) scenarioImages (2 : Nat) (2 : Nat) = .ok scenarioCanvas ∧
    scenarioCanvas.pix (((1 : Nat) : Int) * (2 : Nat) + (1 : Nat))
      (((scenarioImages.length / 2 : Nat) : Int) * (2 : Nat) + (1 : Nat)) = Color.zero ∧
    scenarioCanvas.rect = ⟨0, 0, 4, 4⟩ ∧
    (∀ x ∈ [0, 1], ∀ y ∈ [0, 1], scenarioCanvas.pix x y = red) ∧
    (∀ x ∈ [2, 3], ∀ y ∈ [0, 1], scenarioCanvas.pix x y = blue) ∧
    (∀ x ∈ [0, 1], ∀ y ∈ [2, 3], scenarioCanvas.pix x y = green) ∧
    (∀ x ∈ [2, 3], ∀ y ∈ [2, 3], scenarioCanvas.pix x y = Color.zero) :=
  ⟨rfl,
    C3_unfilled_cells_zero plentyOfMemory 2 2 2 scenarioImages scenarioCanvas rfl 1
      (by decide) 1 1 (by decide) (by decide),
    by decide, by decide, by decide, by decide, by decide⟩

/-- C10 (amended): for every `c ≥ 1`, `N ≥ 1`, `w ≥ 1`, `h ≥ 1` whose sizes
stay in the range of `int` (`Fits`) and every index `i < N`, the destination
rectangle of image `i` is `[x, x+w) x [y, y+h)` with `x = (i mod c) * w` and
`y = (i div c) * h`, it lies inside the canvas rectangle
`[0, c*w) x [0, ceil(N/c)*h)`, `draw.Draw` clips nothing of it, and the
destination rectangles of two distinct indices below `N` are disjoint. -/
theorem C10_cells_inside_disjoint (c n w h i : Nat) (hc : 1 ≤ c) (hw : 1 ≤ w) (hh : 1 ≤ h)
    (hi : i < n) (hf : Fits c n w h) :
    destRect c w h i =
      ⟨((i % c : Nat) : Int) * w, ((i / c : Nat) : Int) * h,
       ((i % c : Nat) : Int) * w + w, ((i / c : Nat) : Int) * h + h⟩ ∧
    canvasRect c n w h = ⟨0, 0, (c : Int) * w, ceilDiv n c * h⟩ ∧
    (0 ≤ ((i % c : Nat) : Int) * w ∧ ((i % c : Nat) : Int) * w + w ≤ (c : Int) * w ∧
      0 ≤ ((i / c : Nat) : Int) * h ∧ ((i / c : Nat) : Int) * h + h ≤ ceilDiv n c * h) ∧
    (∀ (img : Image) (dst : RGBA), img.width = w → img.height = h →
      dst.rect = canvasRect c n w h →
      clipRect dst (destRect c w h i) img = destRect c w h i) ∧
    (∀ j, j < n → j ≠ i → ∀ x y : Int,
      ¬ ((destRect c w h i).contains x y = true ∧ (destRect c w h j).contains x y = true)) := by
  have hd := destRect_of_fits c n w h i hc hi hf
  have hcan := canvasRect_of_fits c n w h hc hf
  obtain ⟨h1, h2⟩ := cell_le_canvas c n w h i hc hi
  refine ⟨hd, hcan, ⟨by positivity, h1, by positivity, h2⟩, ?_, ?_⟩
  · intro img dst hiw hih hdst
    exact clipRect_of_fits c n w h i hc hi hf hw hh img hiw hih dst (hdst.trans hcan)
  · intro j hj hne x y hcon
    rw [hd, destRect_of_fits c n w h j hc hj hf, contains_iff, contains_iff] at hcon
    exact cells_disjoint c w h i j (Ne.symm hne) x y hcon.1 hcon.2

/-- Witness of C10: image 2 of three 2x2 images in two columns. -/
theorem C10_cells_inside_disjoint_witness :
    destRect (2 : Nat) (2 : Nat) (2 : Nat) 2 =
      ⟨((2 % 2 : Nat) : Int) * (2 : Nat), ((2 / 2 : Nat) : Int) * (2 : Nat),
       ((2 % 2 : Nat) : Int) * (2 : Nat) + (2 : Nat),
       ((2 / 2 : Nat) : Int) * (2 : Nat) + (2 : Nat)⟩ ∧
    canvasRect (2 : Nat) 3 (2 : Nat) (2 : Nat) =
      ⟨0, 0, ((2 : Nat) : Int) * (2 : Nat), ceilDiv 3 2 * (2 : Nat)⟩ ∧
    (0 ≤ ((2 % 2 : Nat) : Int) * (2 : Nat) ∧
      ((2 % 2 : Nat) : Int) * (2 : Nat) + (2 : Nat) ≤ ((2 : Nat) : Int) * (2 : Nat) ∧
      0 ≤ ((2 / 2 : Nat) : Int) * (2 : Nat) ∧
      ((2 / 2 : Nat) : Int) * (2 : Nat) + (2 : Nat) ≤ ceilDiv 3 2 * (2 : Nat)) ∧
    (∀ (img : Image) (dst : RGBA), img.width = 2 → img.height = 2 →
      dst.rect = canvasRect (2 : Nat) 3 (2 : Nat) (2 : Nat) →
      clipRect dst (destRect (2 : Nat) (2 : Nat) (2 : Nat) 2) img =
        destRect (2 : Nat) (2 : Nat) (2 : Nat) 2) ∧
    (∀ j, j < 3 → j ≠ 2 → ∀ x y : Int,
      ¬ ((destRect (2 : Nat) (2 : Nat) (2 : Nat) 2).contains x y = true ∧
        (destRect (2 : Nat) (2 : Nat) (2 : Nat) j).contains x y = true)) :=
  C10_cells_inside_disjoint 2 3 2 2 2 (by decide) (by decide) (by decide) (by decide)
    fits_scenario

/-- C10 fails as stated: with `c = 2^63 - 1`, `N = 2`, `w = 2`, `h = 1` the
destination rectangle of image 0 is `(0,0)-(2,1)`, the canvas rectangle is
`(-2,-1)-(0,0)`, and `draw.Draw` clips the whole image away. -/
theorem C10_counterexample :
    1 ≤ hugeColumns ∧
    destRect hugeColumns 2 1 0 = ⟨0, 0, 2, 1⟩ ∧
    canvasRect hugeColumns 2 2 1 = ⟨-2, -1, 0, 0⟩ ∧
    clipRect ⟨canvasRect hugeColumns 2 2 1, fun _ _ => Color.zero⟩
      (destRect hugeColumns 2 1 0) (solid 2 1 red (by decide) (by decide)) = ⟨0, 0, 0, 0⟩ ∧
    clipRect ⟨canvasRect hugeColumns 2 2 1, fun _ _ => Color.zero⟩
      (destRect hugeColumns 2 1 0) (solid 2 1 red (by decide) (by decide)) ≠
        destRect hugeColumns 2 1 0 := by
  decide

/-! ## Claims about loading, errors and the output -/

/-- What `firstMismatch` returns is a mismatching entry of the listing. -/
theorem firstMismatch_some {files : List DirEntry} {e : DirEntry}
    (h : firstMismatch files = some e) :
    ∃ img0, firstImage files = some img0 ∧ e ∈ files ∧
      mismatches img0.width img0.height e = true := by
  unfold firstMismatch at h
  cases hfi : firstImage files with
  | none => simp [hfi] at h
  | some img0 =>
    simp only [hfi] at h
    exact ⟨img0, rfl, List.mem_of_find?_eq_some h, List.find?_some h⟩

/-- Without mismatching entry, no entry differs from the first image. -/
theorem firstMismatch_none {files : List DirEntry} (h : firstMismatch files = none)
    (img0 : Image) (hfi : firstImage files = some img0) (e : DirEntry) (he : e ∈ files) :
    mismatches img0.width img0.height e = false := by
  unfold firstMismatch at h
  simp only [hfi] at h
  simpa using List.find?_eq_none.mp h e he

/-- C4: `mergeImages` aborts with the fatal "size does not match" error if and
only if some successfully decoded candidate has a width or height different
from that of the first successfully decoded candidate; the error names the
first such entry in listing order; at the abort no canvas was allocated and the
output file was not created (the trace holds loading events only).  Whenever
the loading loop ends normally, every loaded image has width `imgWidth` and
height `imgHeight`, and these are what the compositing code is run on. -/
theorem C4_size_mismatch (makeOk : Int → Bool) (env : Env) (folder outputFile : String)
    (columns : Int)
    (files : List DirEntry) (hread : env.readDir = some files) :
    ((∃ name, (mergeImages makeOk env folder columns outputFile).outcome =
        Outcome.sizeMismatch name) ↔
      ∃ img0, firstImage files = some img0 ∧
        ∃ e ∈ files, mismatches img0.width img0.height e = true) ∧
    (∀ name, (mergeImages makeOk env folder columns outputFile).outcome =
        Outcome.sizeMismatch name →
      (∃ e, firstMismatch files = some e ∧ e.name = name) ∧
      (∀ ev ∈ (mergeImages makeOk env folder columns outputFile).trace, ev.isLoad = true) ∧
      (∀ r, Event.allocCanvas r ∉ (mergeImages makeOk env folder columns outputFile).trace) ∧
      (∀ p, Event.createFile p ∉ (mergeImages makeOk env folder columns outputFile).trace)) ∧
    (∀ st, loadLoop folder files (initState folder) = .ok st →
      mergeImages makeOk env folder columns outputFile = finishMerge makeOk env columns outputFile st ∧
      ∀ img ∈ st.images,
        (img.width : Int) = st.imgWidth ∧ (img.height : Int) = st.imgHeight) := by
  have htrace := load_trace_init folder files
  rcases load_cases folder files with ⟨e, tr, hfm, hload⟩ | ⟨st, hfm, hload, -, huni⟩
  · have hm := mergeImages_of_error makeOk env folder columns outputFile files tr e.name hread hload
    rw [hload] at htrace
    rw [hm]
    refine ⟨⟨fun _ => ?_, fun _ => ⟨e.name, rfl⟩⟩, ?_, ?_⟩
    · obtain ⟨img0, h1, h2, h3⟩ := firstMismatch_some hfm
      exact ⟨img0, h1, e, h2, h3⟩
    · intro name hname
      simp only [Outcome.sizeMismatch.injEq] at hname
      refine ⟨⟨e, hfm, hname⟩, htrace, ?_, ?_⟩
      · intro r hr
        have := htrace _ hr
        simp [Event.isLoad] at this
      · intro p hp
        have := htrace _ hp
        simp [Event.isLoad] at this
    · intro st hst
      rw [hload] at hst
      simp at hst
  · have hm := mergeImages_of_ok makeOk env folder columns outputFile files st hread hload
    have hout := @finishMerge_outcome makeOk env columns outputFile st
    rw [hm]
    refine ⟨⟨fun ⟨name, hname⟩ => absurd hname (hout.2.1 name), ?_⟩, ?_, ?_⟩
    · rintro ⟨img0, hfi, e, he, hmis⟩
      rw [firstMismatch_none hfm img0 hfi e he] at hmis
      simp at hmis
    · intro name hname
      exact absurd hname (hout.2.1 name)
    · intro st1 hst1
      rw [hload] at hst1
      simp only [Except.ok.injEq] at hst1
      subst hst1
      exact ⟨rfl, huni⟩

/-- Witness of C4: a folder whose third candidate `c.png` is 3x2 while the
first one is 2x2. -/
theorem C4_size_mismatch_witness :
    mismatchEnv.readDir = some mismatchFiles ∧
    (mergeImages plentyOfMemory mismatchEnv "in" 2 "out.png").outcome.mismatchName = some "c.png" ∧
    (((∃ name, (mergeImages plentyOfMemory mismatchEnv "in" 2 "out.png").outcome =
        Outcome.sizeMismatch name) ↔
      ∃ img0, firstImage mismatchFiles = some img0 ∧
        ∃ e ∈ mismatchFiles, mismatches img0.width img0.height e = true) ∧
    (∀ name, (mergeImages plentyOfMemory mismatchEnv "in" 2 "out.png").outcome =
        Outcome.sizeMismatch name →
      (∃ e, firstMismatch mismatchFiles = some e ∧ e.name = name) ∧
      (∀ ev ∈ (mergeImages plentyOfMemory mismatchEnv "in" 2 "out.png").trace, ev.isLoad = true) ∧
      (∀ r, Event.allocCanvas r ∉ (mergeImages plentyOfMemory mismatchEnv "in" 2 "out.png").trace) ∧
      (∀ p, Event.createFile p ∉ (mergeImages plentyOfMemory mismatchEnv "in" 2 "out.png").trace)) ∧
    (∀ st, loadLoop "in" mismatchFiles (initState "in") = .ok st →
      mergeImages plentyOfMemory mismatchEnv "in" 2 "out.png" = finishMerge plentyOfMemory mismatchEnv 2 "out.png" st ∧
      ∀ img ∈ st.images,
        (img.width : Int) = st.imgWidth ∧ (img.height : Int) = st.imgHeight)) :=
  ⟨rfl, by decide, C4_size_mismatch plentyOfMemory mismatchEnv "in" "out.png" 2 mismatchFiles rfl⟩

/-- C5: for every readable folder whose listing yields no successfully decoded
candidate image, `mergeImages` ends with the fatal "No images loaded" error,
with a trace of loading events only, so the output file is never created;
conversely, when at least one image is loaded the error is not raised. -/
theorem C5_no_images (makeOk : Int → Bool) (env : Env) (folder outputFile : String) (columns : Int)
    (files : List DirEntry) (hread : env.readDir = some files) :
    (files.filterMap candidateImage = [] →
      (mergeImages makeOk env folder columns outputFile).outcome = Outcome.noImages ∧
      (∀ ev ∈ (mergeImages makeOk env folder columns outputFile).trace, ev.isLoad = true) ∧
      (∀ p, Event.createFile p ∉ (mergeImages makeOk env folder columns outputFile).trace)) ∧
    (files.filterMap candidateImage ≠ [] →
      (mergeImages makeOk env folder columns outputFile).outcome ≠ Outcome.noImages) := by
  have htrace := load_trace_init folder files
  rcases load_cases folder files with ⟨e, tr, hfm, hload⟩ | ⟨st, hfm, hload, himg, -⟩
  · have hm := mergeImages_of_error makeOk env folder columns outputFile files tr e.name hread hload
    rw [hm]
    obtain ⟨img0, hfi, -, -⟩ := firstMismatch_some hfm
    refine ⟨fun hnil => ?_, fun _ => by simp⟩
    rw [firstImage, hnil] at hfi
    simp at hfi
  · have hm := mergeImages_of_ok makeOk env folder columns outputFile files st hread hload
    have hout := @finishMerge_outcome makeOk env columns outputFile st
    rw [hload] at htrace
    rw [hm]
    refine ⟨fun hnil => ?_, fun hne => ?_⟩
    · have hst : st.images = [] := by rw [himg, hnil]
      rw [finishMerge_noImages env columns outputFile st hst]
      refine ⟨rfl, htrace, ?_⟩
      intro p hp
      have := htrace _ hp
      simp [Event.isLoad] at this
    · intro hno
      exact hne (by rw [← himg]; exact hout.1.mp hno)

/-- Witness of C5: a folder with a text file, a directory, a corrupt PNG and a
JPEG that cannot be opened. -/
theorem C5_no_images_witness :
    barrenEnv.readDir = some barrenFiles ∧
    (mergeImages plentyOfMemory barrenEnv "in" 6 "out.png").outcome.isNoImages = true ∧
    ((barrenFiles.filterMap candidateImage = [] →
      (mergeImages plentyOfMemory barrenEnv "in" 6 "out.png").outcome = Outcome.noImages ∧
      (∀ ev ∈ (mergeImages plentyOfMemory barrenEnv "in" 6 "out.png").trace, ev.isLoad = true) ∧
      (∀ p, Event.createFile p ∉ (mergeImages plentyOfMemory barrenEnv "in" 6 "out.png").trace)) ∧
    (barrenFiles.filterMap candidateImage ≠ [] →
      (mergeImages plentyOfMemory barrenEnv "in" 6 "out.png").outcome ≠ Outcome.noImages)) :=
  ⟨rfl, by decide, C5_no_images plentyOfMemory barrenEnv "in" "out.png" 6 barrenFiles rfl⟩

/-- C6: the `Run` function fails with the usage error, without calling
`mergeImages`, if and only if the input folder is empty, `columns ≤ 0` or the
output file is empty; in every other case it calls `mergeImages` with exactly
these three values. -/
theorem C6_run_validation (makeOk : Int → Bool) (env : Env) (inputFolder outputFile : String)
    (columns : Int) :
    (run makeOk env inputFolder columns outputFile = RunResult.usageError ↔
      (inputFolder = "" ∨ columns ≤ 0 ∨ outputFile = "")) ∧
    (¬ (inputFolder = "" ∨ columns ≤ 0 ∨ outputFile = "") →
      run makeOk env inputFolder columns outputFile =
        RunResult.merged inputFolder columns outputFile
          (mergeImages makeOk env inputFolder columns outputFile)) := by
  unfold run
  by_cases h : inputFolder = "" ∨ columns ≤ 0 ∨ outputFile = ""
  · simp [h]
  · simp [h]

/-- Witness of C6: the defaults of the flags with an input folder. -/
theorem C6_run_validation_witness :
    ¬ (("photos" : String) = "" ∨ (6 : Int) ≤ 0 ∨ ("./output.png" : String) = "") ∧
    (run plentyOfMemory scenarioEnv "photos" 6 "./output.png").isUsageError = false ∧
    (run plentyOfMemory scenarioEnv "" 6 "./output.png").isUsageError = true ∧
    (run plentyOfMemory scenarioEnv "photos" 0 "./output.png").isUsageError = true ∧
    (run plentyOfMemory scenarioEnv "photos" (-3) "./output.png").isUsageError = true ∧
    (run plentyOfMemory scenarioEnv "photos" 6 "").isUsageError = true ∧
    run plentyOfMemory scenarioEnv "photos" 6 "./output.png" =
      RunResult.merged "photos" 6 "./output.png"
        (mergeImages plentyOfMemory scenarioEnv "photos" 6 "./output.png") :=
  ⟨by decide, by decide, by decide, by decide, by decide, by decide,
    (C6_run_validation plentyOfMemory scenarioEnv "photos" "./output.png" 6).2 (by decide)⟩

/-- C7: for every listing on which no size mismatch occurs, the images that
`mergeImages` composites are exactly, in listing order, the images of the
entries that are not directories, whose extension lower-cased is `.jpg`,
`.jpeg` or `.png`, and that open and decode; the canvas saved is the composite
of that sequence, so the image of index `i` of the grid is the `i`-th such
entry.  The extension test is case-insensitive (`A.PNG` and `b.JpEg` qualify)
and a file is only ever opened when its extension is supported. -/
theorem C7_load_order (makeOk : Int → Bool) (env : Env) (folder outputFile : String) (columns : Int)
    (files : List DirEntry) (hread : env.readDir = some files)
    (hno : (firstMismatch files).isNone = true) :
    (∃ st, loadLoop folder files (initState folder) = .ok st ∧
      st.images = files.filterMap candidateImage ∧
      mergeImages makeOk env folder columns outputFile = finishMerge makeOk env columns outputFile st ∧
      ∀ dst codec, (mergeImages makeOk env folder columns outputFile).outcome =
          Outcome.saved dst codec →
        composite makeOk columns (files.filterMap candidateImage) st.imgWidth st.imgHeight =
          .ok dst) ∧
    (∀ f name, Event.openFile f name ∈ (mergeImages makeOk env folder columns outputFile).trace →
      supportedExt name = true) ∧
    (∀ e : DirEntry, (candidateImage e).isSome = true ↔
      (e.isDir = false ∧ toLower (filepathExt e.name) ∈ [".jpg", ".jpeg", ".png"] ∧
        ∃ img, e.file = FileState.decoded img)) ∧
    supportedExt "A.PNG" = true ∧ supportedExt "b.JpEg" = true ∧
    supportedExt "readme.txt" = false := by
  have htrace := load_trace_init folder files
  rcases load_cases folder files with ⟨e, tr, hfm, -⟩ | ⟨st, -, hload, himg, -⟩
  · rw [hfm] at hno
    simp at hno
  · have hm := mergeImages_of_ok makeOk env folder columns outputFile files st hread hload
    rw [hload] at htrace
    refine ⟨⟨st, hload, himg, hm, ?_⟩, ?_, ?_, by decide, by decide, by decide⟩
    · intro dst codec hsaved
      rw [hm] at hsaved
      rw [← himg]
      exact (finishMerge_saved env columns outputFile st dst codec hsaved).1
    · intro f name hmem
      rw [hm] at hmem
      rcases finishMerge_trace env columns outputFile st _ hmem with h | ⟨r, h⟩ | h | h | h
      · simpa [Event.isLoad] using htrace _ h
      · simp at h
      · simp at h
      · simp at h
      · simp at h
    · intro e
      unfold candidateImage supportedExt
      cases e.isDir <;> cases e.file <;>
        by_cases hs : toLower (filepathExt e.name) ∈ [".jpg", ".jpeg", ".png"] <;>
        simp [hs]

/-- Witness of C7: a folder with a directory, `A.PNG`, a `readme.txt` that holds
an image of another size, `b.JpEg`, a corrupt PNG and `c.jpg`. -/
theorem C7_load_order_witness :
    (mergeImages plentyOfMemory mixedEnv "in" 2 "out.png").trace =
      [Event.readDir "in", Event.openFile "in" "A.PNG", Event.openFile "in" "b.JpEg",
       Event.openFile "in" "broken.png", Event.logSkipDecode "in" "broken.png",
       Event.openFile "in" "c.jpg", Event.allocCanvas ⟨0, 0, 4, 4⟩,
       Event.createFile "out.png", Event.encode Codec.png, Event.printSaved "out.png"] ∧
    (mergeImages plentyOfMemory mixedEnv "in" 2 "out.png").outcome.pixel 0 0 = some red ∧
    (mergeImages plentyOfMemory mixedEnv "in" 2 "out.png").outcome.pixel 2 0 = some blue ∧
    (mergeImages plentyOfMemory mixedEnv "in" 2 "out.png").outcome.pixel 0 2 = some green ∧
    ∃ st, loadLoop "in" mixedFiles (initState "in") = .ok st ∧
      st.images = mixedFiles.filterMap candidateImage ∧
      mergeImages plentyOfMemory mixedEnv "in" 2 "out.png" = finishMerge plentyOfMemory mixedEnv 2 "out.png" st ∧
      ∀ dst codec, (mergeImages plentyOfMemory mixedEnv "in" 2 "out.png").outcome =
          Outcome.saved dst codec →
        composite plentyOfMemory 2 (mixedFiles.filterMap candidateImage) st.imgWidth st.imgHeight =
          .ok dst :=
  ⟨by decide, by decide, by decide, by decide,
    (C7_load_order plentyOfMemory mixedEnv "in" "out.png" 2 mixedFiles rfl (by decide)).1⟩

/-- C8: skipped entries do not influence the result.  When a listing `l1` is
obtained from `l` by inserting, at any positions, entries that are directories,
have an unsupported extension, fail to open or fail to decode, `mergeImages`
on `l1` has the same outcome as on `l`: the same fatal error, or the same
canvas and the same codec.  A skipped entry, a corrupt candidate in
particular, never aborts the loop and leaves the images and the canonical
width and height as they are. -/
theorem C8_skipped_entries (makeOk : Int → Bool) (env env1 : Env) (folder outputFile : String)
    (columns : Int)
    (l l1 : List DirEntry) (hl : env.readDir = some l) (hl1 : env1.readDir = some l1)
    (hc : env1.createOk = env.createOk) (he : env1.encodeOk = env.encodeOk)
    (hins : InsertSkipped l l1) :
    (mergeImages makeOk env1 folder columns outputFile).outcome =
      (mergeImages makeOk env folder columns outputFile).outcome ∧
    (∀ (st : LoadState) (e : DirEntry), e.skipped = true →
      ∃ tr, loadStep folder st e = .ok { st with trace := tr }) := by
  constructor
  · have hsame := loadLoop_insertSkipped folder hins (initState folder) (initState folder)
      rfl rfl rfl
    cases h0 : loadLoop folder l (initState folder) with
    | error err =>
      cases h1 : loadLoop folder l1 (initState folder) with
      | error err1 =>
        rw [h0, h1] at hsame
        obtain ⟨tr, name⟩ := err
        obtain ⟨tr1, name1⟩ := err1
        rw [mergeImages_of_error makeOk env folder columns outputFile l tr name hl h0,
          mergeImages_of_error makeOk env1 folder columns outputFile l1 tr1 name1 hl1 h1]
        simp only [SameLoad] at hsame
        rw [hsame]
      | ok st1 =>
        rw [h0, h1] at hsame
        exact absurd hsame (by simp [SameLoad])
    | ok st =>
      cases h1 : loadLoop folder l1 (initState folder) with
      | error err1 =>
        rw [h0, h1] at hsame
        exact absurd hsame (by simp [SameLoad])
      | ok st1 =>
        rw [h0, h1] at hsame
        rw [mergeImages_of_ok makeOk env folder columns outputFile l st hl h0,
          mergeImages_of_ok makeOk env1 folder columns outputFile l1 st1 hl1 h1]
        exact finishMerge_outcome_congr env env1 columns outputFile st st1
          hsame.1.symm hsame.2.1.symm hsame.2.2.symm hc he
  · intro st e hskip
    obtain ⟨tr, htr, -⟩ := loadStep_skip folder st e
      ((candidateImage_eq_none_iff e).mpr hskip)
    exact ⟨tr, htr⟩

theorem insertSkipped_mixed : InsertSkipped cleanFiles mixedFiles :=
  InsertSkipped.skip _ (by decide) (InsertSkipped.keep _ (InsertSkipped.skip _ (by decide)
    (InsertSkipped.keep _ (InsertSkipped.skip _ (by decide)
      (InsertSkipped.keep _ InsertSkipped.nil)))))

/-- Witness of C8: the mixed folder against the same folder without its
directory, its text file and its corrupt PNG. -/
theorem C8_skipped_entries_witness :
    InsertSkipped cleanFiles mixedFiles ∧
    (mergeImages plentyOfMemory cleanEnv "in" 2 "out.png").outcome.bounds = some ⟨0, 0, 4, 4⟩ ∧
    (mergeImages plentyOfMemory mixedEnv "in" 2 "out.png").outcome.bounds = some ⟨0, 0, 4, 4⟩ ∧
    (mergeImages plentyOfMemory mixedEnv "in" 2 "out.png").outcome =
      (mergeImages plentyOfMemory cleanEnv "in" 2 "out.png").outcome :=
  ⟨insertSkipped_mixed, by decide, by decide,
    (C8_skipped_entries plentyOfMemory cleanEnv mixedEnv "in" "out.png" 2 cleanFiles mixedFiles rfl rfl rfl
      rfl insertSkipped_mixed).1⟩

/-- C9: for every output path `p`, `mergeImages` encodes the canvas as PNG if
and only if the lower-cased `p` ends with `.png`, and otherwise as JPEG with
quality 90: the codec of every encoding event of the trace and of the saved
outcome is the one chosen this way.  `out.PNG` and `x.Png` select PNG; `.jpg`,
`.jpeg`, no extension and `.gif` select JPEG at quality 90. -/
theorem C9_codec_choice (makeOk : Int → Bool) (env : Env) (folder : String) (columns : Int)
    (p : String) :
    (chooseCodec p = Codec.png ↔ ".png".data <:+ (toLower p).data) ∧
    (¬ (".png".data <:+ (toLower p).data) → chooseCodec p = Codec.jpeg 90) ∧
    (∀ codec, Event.encode codec ∈ (mergeImages makeOk env folder columns p).trace →
      codec = chooseCodec p) ∧
    (∀ dst codec, (mergeImages makeOk env folder columns p).outcome = Outcome.saved dst codec →
      codec = chooseCodec p ∧ Event.encode codec ∈ (mergeImages makeOk env folder columns p).trace) ∧
    chooseCodec "out.PNG" = Codec.png ∧ chooseCodec "x.Png" = Codec.png ∧
    chooseCodec "a.jpg" = Codec.jpeg 90 ∧ chooseCodec "a.jpeg" = Codec.jpeg 90 ∧
    chooseCodec "noext" = Codec.jpeg 90 ∧ chooseCodec "anim.gif" = Codec.jpeg 90 := by
  have hsuf : hasSuffix (toLower p) ".png" = true ↔ ".png".data <:+ (toLower p).data := by
    unfold hasSuffix
    exact List.isSuffixOf_iff_suffix
  refine ⟨?_, ?_, ?_, ?_, by decide, by decide, by decide, by decide, by decide, by decide⟩
  · rw [← hsuf]
    unfold chooseCodec
    by_cases h : hasSuffix (toLower p) ".png" = true <;> simp [h]
  · intro hn
    rw [← hsuf] at hn
    unfold chooseCodec
    simp [hn]
  · intro codec hmem
    cases hread : env.readDir with
    | none =>
      unfold mergeImages at hmem
      rw [hread] at hmem
      simp at hmem
    | some files =>
      have htrace := load_trace_init folder files
      rcases load_cases folder files with ⟨e, tr, -, hload⟩ | ⟨st, -, hload, -, -⟩
      · rw [mergeImages_of_error makeOk env folder columns p files tr e.name hread hload] at hmem
        rw [hload] at htrace
        have := htrace _ hmem
        simp [Event.isLoad] at this
      · rw [mergeImages_of_ok makeOk env folder columns p files st hread hload] at hmem
        rw [hload] at htrace
        rcases finishMerge_trace env columns p st _ hmem with h | ⟨r, h⟩ | h | h | h
        · have := htrace _ h
          simp [Event.isLoad] at this
        · simp at h
        · simp at h
        · simpa using h
        · simp at h
  · intro dst codec hsaved
    cases hread : env.readDir with
    | none =>
      unfold mergeImages at hsaved
      rw [hread] at hsaved
      simp at hsaved
    | some files =>
      rcases load_cases folder files with ⟨e, tr, -, hload⟩ | ⟨st, -, hload, -, -⟩
      · rw [mergeImages_of_error makeOk env folder columns p files tr e.name hread hload] at hsaved
        simp at hsaved
      · rw [mergeImages_of_ok makeOk env folder columns p files st hread hload] at hsaved ⊢
        exact (finishMerge_saved env columns p st dst codec hsaved).2

/-- Witness of C9: the scenario folder written to `Grid.PNG` and to `grid.jpeg`. -/
theorem C9_codec_choice_witness :
    ¬ (".png".data <:+ (toLower "grid.jpeg").data) ∧
    chooseCodec "grid.jpeg" = Codec.jpeg 90 ∧
    (mergeImages plentyOfMemory scenarioEnv "in" 2 "Grid.PNG").outcome.codec = some Codec.png ∧
    (mergeImages plentyOfMemory scenarioEnv "in" 2 "grid.jpeg").outcome.codec = some (Codec.jpeg 90) ∧
    Event.encode (Codec.jpeg 90) ∈ (mergeImages plentyOfMemory scenarioEnv "in" 2 "grid.jpeg").trace ∧
    Event.encode (Codec.jpeg 90) = Event.encode (chooseCodec "grid.jpeg") :=
  ⟨by decide,
    (C9_codec_choice plentyOfMemory scenarioEnv "in" 2 "grid.jpeg").2.1 (by decide),
    by decide, by decide, by decide,
    congrArg Event.encode
      ((C9_codec_choice plentyOfMemory scenarioEnv "in" 2 "grid.jpeg").2.2.1 (Codec.jpeg 90) (by decide))⟩

end Imgtile
